import Mathlib

/-!
Shallow embedding of the POS inventory core of this repository:
the cashier-to-cashier stock transfer handler and the transaction
return handler, together with the mongoose transaction schema they
persist through.  Quantities and money amounts are JavaScript numbers
in the source; they are modelled as rationals, and timestamps as
integers.  Each definition mirrors one function or code block of the
source; the theorems at the end of the file settle the specification
claims against these definitions.
-/

namespace Pos

/-- Status of a distribution lot, from the distribution documents used by
both handlers (`status ∈ {pending, delivered, cancelled}`). -/
inductive DistStatus where
  | pending
  | delivered
  | cancelled
deriving DecidableEq, Repr

/-- A line item of a distribution lot: `{productId, productName, productSku,
category, quantity, price, totalValue}` as pushed and mutated by both
handlers. -/
structure DistItem where
  productId : String
  productName : String
  productSku : String
  category : String
  quantity : ℚ
  price : ℚ
  totalValue : ℚ
deriving DecidableEq, Repr

/-- A distribution lot document. `id` stands for the Mongo `_id`,
`createdAt` for the timestamp used to order lots. -/
structure Distribution where
  id : Nat
  adminId : String
  cashierId : String
  items : List DistItem
  totalValue : ℚ
  notes : String
  status : DistStatus
  createdAt : ℤ
deriving DecidableEq, Repr

/-- The distribution collection: the persisted lots, plus a counter
supplying the `_id` of the next lot created. -/
structure DistState where
  lots : List Distribution
  nextId : Nat
deriving DecidableEq, Repr

/-- Default distribution used only as the `getD` fallback in statements. -/
def dDist : Distribution :=
  { id := 0, adminId := "", cashierId := "", items := [], totalValue := 0,
    notes := "", status := .pending, createdAt := 0 }

/-- One requested item of the transfer body
(`{productId, productName, productSku, category, quantity, price}`). -/
structure TransferItem where
  productId : String
  productName : String
  productSku : String
  category : String
  quantity : ℚ
  price : ℚ
deriving DecidableEq, Repr

/-- Update the first item of the list whose `productId` equals `pid`,
leaving everything else untouched; mirrors mutating the result of
`items.find(...)` in place. -/
def updateFirstItem (pid : String) (f : DistItem → DistItem) :
    List DistItem → List DistItem
  | [] => []
  | di :: rest =>
    if di.productId = pid then f di :: rest
    else di :: updateFirstItem pid f rest

/-- Replace the lot whose `_id` matches `t.id` by `t`; mirrors saving a
mutated document back into the collection. -/
def replaceFirstById (t : Distribution) : List Distribution → List Distribution
  | [] => []
  | d :: rest =>
    if d.id = t.id then t :: rest
    else d :: replaceFirstById t rest

/-- Stable insertion step for sorting lots by `createdAt` ascending. -/
def insertDistAsc (x : Distribution) : List Distribution → List Distribution
  | [] => [x]
  | y :: ys =>
    if y.createdAt < x.createdAt then y :: insertDistAsc x ys
    else x :: y :: ys

/-- Stable sort by `createdAt` ascending, as done by
`sort((a, b) => a.createdAt - b.createdAt)` in the transfer handler. -/
def sortByCreatedAtAsc : List Distribution → List Distribution
  | [] => []
  | x :: xs => insertDistAsc x (sortByCreatedAtAsc xs)

/-- Stable insertion step for sorting lots by `createdAt` descending. -/
def insertDistDesc (x : Distribution) : List Distribution → List Distribution
  | [] => [x]
  | y :: ys =>
    if x.createdAt < y.createdAt then y :: insertDistDesc x ys
    else x :: y :: ys

/-- Stable sort by `createdAt` descending, as done by
`sort({ createdAt: -1 })` and `sort((a, b) => b - a)` in the return
handler. -/
def sortByCreatedAtDesc : List Distribution → List Distribution
  | [] => []
  | x :: xs => insertDistDesc x (sortByCreatedAtDesc xs)

/-- Persist a batch of mutated lot documents: every lot of the collection
whose `_id` appears among `updated` is replaced by its updated version. -/
def writeBack (lots updated : List Distribution) : List Distribution :=
  lots.map fun d => ((updated.find? fun u => u.id == d.id).getD d)

/-- Total quantity of product `pid` held by the line items `items`. -/
def itemsPidSum (pid : String) (items : List DistItem) : ℚ :=
  ((items.filter fun it => it.productId == pid).map DistItem.quantity).sum

/-- Total quantity of product `pid` held by lot `d`. -/
def pidQty (pid : String) (d : Distribution) : ℚ :=
  itemsPidSum pid d.items

/-- Sum of the quantities of product `pid` across the already filtered
sender lots; mirrors the `senderStock` accumulation of the transfer
handler. -/
def senderStockOf (lots : List Distribution) (pid : String) : ℚ :=
  ((lots.map fun d => itemsPidSum pid d.items).sum)

/-- A lot is active when its status is pending or delivered. -/
def isActiveLot (d : Distribution) : Prop :=
  d.status = .pending ∨ d.status = .delivered

instance (d : Distribution) : Decidable (isActiveLot d) := by
  unfold isActiveLot; infer_instance

/-- Available stock of product `pid` for a cashier: the sum of quantities
across the cashier's pending/delivered lots. -/
def availableStock (st : DistState) (cashierId pid : String) : ℚ :=
  senderStockOf
    (st.lots.filter fun d => decide (d.cashierId = cashierId ∧ isActiveLot d))
    pid

/-- One step of the FIFO depletion walk of the transfer handler: visit the
lots oldest first, and in each lot deduct
`min(remainingToDeduct, distItem.quantity)` from the first line item for
the product, removing the line item at zero, recomputing the lot total
and cancelling a lot left without items. -/
def fifoWalk (pid : String) : List Distribution → ℚ → List Distribution
  | [], _ => []
  | d :: rest, remaining =>
    if remaining ≤ 0 then d :: rest
    else
      match d.items.find? fun di => di.productId == pid with
      | some distItem =>
        if 0 < distItem.quantity then
          let deduction := min remaining distItem.quantity
          let items1 := updateFirstItem pid
            (fun di => { di with quantity := di.quantity - deduction }) d.items
          let items2 :=
            if distItem.quantity - deduction = 0 then
              items1.filter fun di => !(di.productId == pid)
            else items1
          let d1 : Distribution :=
            { d with items := items2,
                     totalValue := ((items2.map fun di => di.price * di.quantity).sum),
                     status := if items2 = [] then .cancelled else d.status }
          d1 :: fifoWalk pid rest (remaining - deduction)
        else d :: fifoWalk pid rest remaining
      | none => d :: fifoWalk pid rest remaining

/-- FIFO depletion of one requested item from the sender's lots: sort by
`createdAt` ascending, then walk. -/
def depleteOne (lots : List Distribution) (pid : String) (qty : ℚ) :
    List Distribution :=
  fifoWalk pid (sortByCreatedAtAsc lots) qty

/-- Deplete every requested item in order from the sender's lots. -/
def depleteAll (lots : List Distribution) : List TransferItem → List Distribution
  | [] => lots
  | it :: rest => depleteAll (depleteOne lots it.productId it.quantity) rest

/-- The line items pushed to the receiver, `itemsToAdd` of the transfer
handler (with the `category || "Accessories"` fallback). -/
def itemsToAddOf (items : List TransferItem) : List DistItem :=
  items.map fun it =>
    { productId := it.productId, productName := it.productName,
      productSku := it.productSku,
      category := if it.category = "" then "Accessories" else it.category,
      quantity := it.quantity, price := it.price,
      totalValue := it.price * it.quantity }

/-- Merge one incoming item into an existing receiver lot: add to the
first existing line item for the product, or push the new line item. -/
def mergeRecvItem (d : Distribution) (itemToAdd : DistItem) : Distribution :=
  if (d.items.find? fun di => di.productId == itemToAdd.productId).isSome then
    { d with items :=
        (updateFirstItem itemToAdd.productId
          (fun di => { di with quantity := di.quantity + itemToAdd.quantity,
                               totalValue := di.price * (di.quantity + itemToAdd.quantity) })
          d.items) }
  else
    { d with items := d.items ++ [itemToAdd] }

/-- Merge all incoming items into the first active receiver lot and
recompute its `totalValue` as the sum of the line `totalValue`s;
this is the receiver loop of the transfer handler, which always breaks
after the first distribution. -/
def mergeIntoRecvLot (d : Distribution) (itemsToAdd : List DistItem) :
    Distribution :=
  let d1 := itemsToAdd.foldl mergeRecvItem d
  { d1 with totalValue := ((d1.items.map DistItem.totalValue).sum) }

/-- Result of the transfer handler: the response (`none` on success) and
the distribution collection as persisted when the response is sent. -/
structure TransferResult where
  err : Option String
  state : DistState
deriving DecidableEq, Repr

/-- Shallow embedding of the cashier-to-cashier distribution handler
(`POST` of the transfer route): validate the body, reject
self-transfers, check availability for every item, then deplete the
sender FIFO and credit the receiver. -/
def transferStock (st : DistState) (now : ℤ)
    (senderCashierId receiverCashierId : String)
    (items : List TransferItem) (notes : String) : TransferResult :=
  if senderCashierId = "" ∨ receiverCashierId = "" ∨ items = [] then
    ⟨some "Missing required fields", st⟩
  else if senderCashierId = receiverCashierId then
    ⟨some "Cannot distribute to yourself", st⟩
  else if items.any fun it =>
      decide (it.productId = "" ∨ it.productName = "" ∨ it.productSku = "" ∨
        it.category = "" ∨ it.quantity = 0 ∨ it.price = 0) then
    ⟨some "Invalid item data - missing required fields", st⟩
  else
    let senderDistributions := st.lots.filter fun d =>
      decide (d.cashierId = senderCashierId ∧ isActiveLot d)
    if items.any fun it =>
        decide (senderStockOf senderDistributions it.productId < it.quantity) then
      ⟨some "Insufficient stock", st⟩
    else
      let totalValue := ((items.map fun it => it.price * it.quantity).sum)
      let depleted := depleteAll senderDistributions items
      let lots1 := writeBack st.lots depleted
      let receiverDistributions := lots1.filter fun d =>
        decide (d.cashierId = receiverCashierId ∧ isActiveLot d)
      let itemsToAdd := itemsToAddOf items
      match receiverDistributions with
      | recvLot :: _ =>
        ⟨none, { st with lots := replaceFirstById (mergeIntoRecvLot recvLot itemsToAdd) lots1 }⟩
      | [] =>
        let newLot : Distribution :=
          { id := st.nextId, adminId := senderCashierId,
            cashierId := receiverCashierId, items := itemsToAdd,
            totalValue := totalValue,
            notes := if notes = "" then "Distribution from cashier" else notes,
            status := .delivered, createdAt := now }
        ⟨none, { lots := lots1 ++ [newLot], nextId := st.nextId + 1 }⟩

end Pos

namespace Pos

/-! ### The transaction return handler -/

/-- Status of a transaction (`completed`, `refunded` or `cancelled`). -/
inductive TxStatus where
  | completed
  | refunded
  | cancelled
deriving DecidableEq, Repr

/-- An original line item of a transaction, from the transaction schema:
`discount` is the percentage applied, `total` the post-discount line
total. -/
structure TransactionItem where
  productId : String
  productName : String
  productSku : String
  category : String
  quantity : ℚ
  price : ℚ
  discount : ℚ
  total : ℚ
deriving DecidableEq, Repr

/-- Default transaction item used only as the `getD` fallback. -/
def dItem : TransactionItem :=
  { productId := "", productName := "", productSku := "", category := "",
    quantity := 0, price := 0, discount := 0, total := 0 }

/-- A returned-item record appended to a transaction by the return
handler. -/
structure ReturnedItem where
  productId : String
  productName : String
  productSku : String
  category : String
  quantity : ℚ
  price : ℚ
  discount : ℚ
  total : ℚ
  returnAmount : ℚ
  description : String
  returnedAt : ℤ
deriving DecidableEq, Repr

/-- A transaction document. -/
structure Transaction where
  id : String
  cashierId : String
  items : List TransactionItem
  returnedItems : List ReturnedItem
  subtotal : ℚ
  overallDiscount : ℚ
  totalAmount : ℚ
  cashReceived : ℚ
  change : ℚ
  status : TxStatus
deriving DecidableEq, Repr

/-- One line of the return request body
(`{itemIndex, quantity, description}`). -/
structure ReturnRequest where
  itemIndex : ℤ
  quantity : ℚ
  description : String
deriving DecidableEq, Repr

/-- Inner reinstatement loop over the line items of one lot: add
`min(remainingQuantity, quantity)` back to each line item matching the
product, stopping once nothing remains; returns the updated items and
the remaining quantity. -/
def addBackItems (pid : String) (quantity : ℚ) :
    List DistItem → ℚ → List DistItem × ℚ
  | [], remaining => ([], remaining)
  | di :: rest, remaining =>
    if di.productId = pid then
      let addBackQty := min remaining quantity
      let di1 : DistItem :=
        { di with quantity := di.quantity + addBackQty,
                  totalValue := (di.quantity + addBackQty) * di.price }
      let remaining1 := remaining - addBackQty
      if remaining1 ≤ 0 then (di1 :: rest, remaining1)
      else
        let p := addBackItems pid quantity rest remaining1
        (di1 :: p.1, p.2)
    else
      let p := addBackItems pid quantity rest remaining
      (di :: p.1, p.2)

/-- Reinstatement step for a single lot: run the inner loop over its
items when it has any; if a quantity was added, promote a cancelled lot
to pending and recompute the lot total. -/
def reinstLot (pid : String) (quantity : ℚ) (d : Distribution)
    (remaining : ℚ) : Distribution × ℚ :=
  if d.items ≠ [] then
    let p := addBackItems pid quantity d.items remaining
    if p.2 < remaining then
      ({ d with items := p.1,
                status := if d.status = .cancelled then .pending else d.status,
                totalValue := ((p.1.map fun di => di.quantity * di.price).sum) },
        p.2)
    else (d, p.2)
  else (d, remaining)

/-- Outer reinstatement loop of the return handler over the cashier's
lots, newest first, breaking once nothing remains. -/
def reinstLoop (pid : String) (quantity : ℚ) :
    List Distribution → ℚ → List Distribution × ℚ
  | [], remaining => ([], remaining)
  | d :: rest, remaining =>
    if remaining ≤ 0 then (d :: rest, remaining)
    else
      let p := reinstLot pid quantity d remaining
      let q := reinstLoop pid quantity rest p.2
      (p.1 :: q.1, q.2)

/-- Fallback target update: merge the remaining quantity into the first
existing line item for the product, or push a new line item built from
the original transaction item; promote a cancelled lot to pending and
recompute the lot total. -/
def applyFallback (orig : TransactionItem) (remaining : ℚ)
    (t : Distribution) : Distribution :=
  let items1 :=
    if (t.items.find? fun di => di.productId == orig.productId).isSome then
      updateFirstItem orig.productId
        (fun di => { di with quantity := di.quantity + remaining,
                             totalValue := (di.quantity + remaining) * di.price })
        t.items
    else
      t.items ++ [{ productId := orig.productId,
                    productName := orig.productName,
                    productSku := orig.productSku,
                    category := orig.category, quantity := remaining,
                    price := orig.price,
                    totalValue := remaining * orig.price }]
  { t with items := items1,
           status := if t.status = .cancelled then .pending else t.status,
           totalValue := ((items1.map fun di => di.quantity * di.price).sum) }

/-- Fallback of the return handler when the merge loop left a remainder:
target the most recent pending/delivered lot, or, failing that, the most
recent lot of any status. -/
def reinstFallback (orig : TransactionItem) (remaining : ℚ)
    (distributions : List Distribution) : List Distribution :=
  if 0 < remaining then
    let target? :=
      match (sortByCreatedAtDesc
          (distributions.filter fun d => decide (isActiveLot d))).head? with
      | some t => some t
      | none => distributions.head?
    match target? with
    | some t => replaceFirstById (applyFallback orig remaining t) distributions
    | none => distributions
  else distributions

/-- Reinstatement of one returned line over the cashier's lots (of any
status, newest first): merge loop, then fallback. -/
def reinstCore (orig : TransactionItem) (quantity : ℚ)
    (dists : List Distribution) : List Distribution :=
  let p := reinstLoop orig.productId quantity dists quantity
  reinstFallback orig p.2 p.1

/-- Reinstate one returned line: query the cashier's lots (status pending,
delivered or cancelled) newest first, run the merge loop and fallback,
and persist the updated lots. -/
def reinstate (st : DistState) (cashierId : String) (orig : TransactionItem)
    (quantity : ℚ) : DistState :=
  let distributions := sortByCreatedAtDesc
    (st.lots.filter fun d =>
      decide (d.cashierId = cashierId ∧
        (d.status = .pending ∨ d.status = .delivered ∨ d.status = .cancelled)))
  { st with lots := writeBack st.lots (reinstCore orig quantity distributions) }

/-- Quantity of earlier returns recorded for the same product id and sku
as `orig`, as summed by the handler over the persisted
`transaction.returnedItems`. -/
def alreadyReturnedFor (returned : List ReturnedItem)
    (orig : TransactionItem) : ℚ :=
  (((returned.filter fun r =>
      r.productId == orig.productId && r.productSku == orig.productSku).map
    ReturnedItem.quantity).sum)

/-- Refund for one requested line: the proportional share
`(originalItem.total / originalItem.quantity) * quantity` of the line's
post-discount total. -/
def lineRefund (tx : Transaction) (req : ReturnRequest) : ℚ :=
  let originalItem := tx.items.getD req.itemIndex.toNat dItem
  originalItem.total / originalItem.quantity * req.quantity

/-- Outcome of the per-line processing loop of the return handler. -/
structure LoopOut where
  err : Option String
  state : DistState
  total : ℚ
  newItems : List ReturnedItem
deriving DecidableEq, Repr

/-- The per-line processing loop of the return handler: validate the
index and the remaining returnable quantity, accumulate the refund and
the new returned-item records, and reinstate stock — mutating the
distribution collection line by line, so lots already updated stay
updated when a later line is rejected. -/
def returnLoop (tx : Transaction) (now : ℤ) :
    DistState → ℚ → List ReturnedItem → List ReturnRequest → LoopOut
  | st, total, acc, [] => ⟨none, st, total, acc⟩
  | st, total, acc, req :: rest =>
    if req.itemIndex < 0 ∨ (tx.items.length : ℤ) ≤ req.itemIndex then
      ⟨some "Invalid item index", st, total, acc⟩
    else
      let originalItem := tx.items.getD req.itemIndex.toNat dItem
      let alreadyReturned := alreadyReturnedFor tx.returnedItems originalItem
      let availableToReturn := originalItem.quantity - alreadyReturned
      if availableToReturn < req.quantity then
        ⟨some "Cannot return more than available to return", st, total, acc⟩
      else
        let returnAmount := originalItem.total / originalItem.quantity * req.quantity
        let newRet : ReturnedItem :=
          { productId := originalItem.productId,
            productName := originalItem.productName,
            productSku := originalItem.productSku,
            category := originalItem.category, quantity := req.quantity,
            price := originalItem.price, discount := originalItem.discount,
            total := originalItem.total, returnAmount := returnAmount,
            description :=
              if req.description = "" then "No reason provided"
              else req.description,
            returnedAt := now }
        let st1 := reinstate st tx.cashierId originalItem req.quantity
        returnLoop tx now st1 (total + returnAmount) (acc ++ [newRet]) rest

/-- Validity of a transaction line item under the mongoose
`TransactionItemSchema` (required strings, `quantity ≥ 1`, `price ≥ 0`,
`discount ∈ [0,100]`, `total ≥ 0`). -/
def validTransactionItem (it : TransactionItem) : Prop :=
  it.productName ≠ "" ∧ it.productSku ≠ "" ∧ it.category ≠ "" ∧
  1 ≤ it.quantity ∧ 0 ≤ it.price ∧ 0 ≤ it.discount ∧ it.discount ≤ 100 ∧
  0 ≤ it.total

instance (it : TransactionItem) : Decidable (validTransactionItem it) := by
  unfold validTransactionItem; infer_instance

/-- Validity of a returned-item record under the mongoose
`ReturnedItemSchema` (adds `returnAmount ≥ 0` and a required
description). -/
def validReturnedItem (r : ReturnedItem) : Prop :=
  r.productName ≠ "" ∧ r.productSku ≠ "" ∧ r.category ≠ "" ∧
  1 ≤ r.quantity ∧ 0 ≤ r.price ∧ 0 ≤ r.discount ∧ r.discount ≤ 100 ∧
  0 ≤ r.total ∧ 0 ≤ r.returnAmount ∧ r.description ≠ ""

instance (r : ReturnedItem) : Decidable (validReturnedItem r) := by
  unfold validReturnedItem; infer_instance

/-- Document validation run by mongoose when the handler saves the
transaction (`TransactionSchema` of `src/lib/transaction.ts`). -/
def validSaveTransaction (t : Transaction) : Prop :=
  (∀ it ∈ t.items, validTransactionItem it) ∧
  (∀ r ∈ t.returnedItems, validReturnedItem r) ∧
  0 ≤ t.subtotal ∧ 0 ≤ t.overallDiscount ∧ 0 ≤ t.totalAmount ∧
  0 ≤ t.cashReceived ∧ 0 ≤ t.change

instance (t : Transaction) : Decidable (validSaveTransaction t) := by
  unfold validSaveTransaction; infer_instance

/-- Final update of the transaction after the loop: append the new
returned items, clamp the recomputed `subtotal` and `totalAmount` at 0,
and mark the transaction refunded when the returned quantity reaches
the original quantity. -/
def finalizeTx (tx : Transaction) (total : ℚ)
    (newItems : List ReturnedItem) : Transaction :=
  let tx1 := { tx with returnedItems := tx.returnedItems ++ newItems }
  let tx2 := { tx1 with subtotal := max 0 (tx1.subtotal - total),
                        totalAmount := max 0 (tx1.totalAmount - total) }
  let totalReturnedQuantity := ((tx2.returnedItems.map ReturnedItem.quantity).sum)
  let totalOriginalQuantity := ((tx2.items.map TransactionItem.quantity).sum)
  if totalOriginalQuantity ≤ totalReturnedQuantity then
    { tx2 with status := .refunded }
  else tx2

/-- Result of the return handler: the response (`none` on success), the
transaction as persisted, the reported refund, and the distribution
collection as persisted when the response is sent. -/
structure ReturnResult where
  err : Option String
  tx : Transaction
  amount : ℚ
  state : DistState
deriving DecidableEq, Repr

/-- Shallow embedding of the return handler (`POST` of the return route):
reject an empty request, process the lines (validating and reinstating
stock line by line), then append the returned items, recompute the
totals and status, and save the transaction — the save failing (with the
stock mutations already persisted) when the new records violate the
schema. -/
def processReturn (tx : Transaction) (st : DistState) (now : ℤ)
    (returnedItems : List ReturnRequest) : ReturnResult :=
  if returnedItems = [] then ⟨some "No items selected for return", tx, 0, st⟩
  else
    let out := returnLoop tx now st 0 [] returnedItems
    match out.err with
    | some e => ⟨some e, tx, 0, out.state⟩
    | none =>
      let tx3 := finalizeTx tx out.total out.newItems
      if validSaveTransaction tx3 then ⟨none, tx3, out.total, out.state⟩
      else ⟨some "Failed to process return", tx, 0, out.state⟩

/-! Scenario of the FIFO-determinism property: one cashier `"s"` holding
three single-product lots created at times 1 < 2 < 3. -/

/-- Lot `i` of the FIFO scenario: one line item of product `"P"` with
quantity `q` at unit price 100, created at time `t`. -/
def c4Lot (i : Nat) (t : ℤ) (q : ℚ) : Distribution :=
  { id := i, adminId := "a", cashierId := "s",
    items := [⟨"P", "N", "K", "cat", q, 100, q * 100⟩],
    totalValue := q * 100, notes := "", status := .pending, createdAt := t }

/-- Lot `i` of the FIFO scenario after `r` units were requested from it
while it held `q`: emptied (item removed, lot cancelled) when `q ≤ r`,
otherwise left with `q - r` units (the line's stale `totalValue` is kept,
as the transfer handler only recomputes the lot total). -/
def c4LotAfter (i : Nat) (t : ℤ) (q r : ℚ) : Distribution :=
  if q ≤ r then
    { id := i, adminId := "a", cashierId := "s", items := [], totalValue := 0,
      notes := "", status := .cancelled, createdAt := t }
  else
    { id := i, adminId := "a", cashierId := "s",
      items := [⟨"P", "N", "K", "cat", q - r, 100, q * 100⟩],
      totalValue := 100 * (q - r), notes := "", status := .pending,
      createdAt := t }

/-- The requested transfer item of the FIFO scenario. -/
def c4Item (Q : ℚ) : TransferItem := ⟨"P", "N", "K", "cat", Q, 100⟩

/-- Initial distribution collection of the FIFO scenario. -/
def c4State (q1 q2 q3 : ℚ) : DistState :=
  ⟨[c4Lot 1 1 q1, c4Lot 2 2 q2, c4Lot 3 3 q3], 4⟩

/-- Transferring `Q` units of `"P"` from `"s"` to `"r"` in the FIFO
scenario. -/
def c4Run (q1 q2 q3 Q : ℚ) : TransferResult :=
  transferStock (c4State q1 q2 q3) 9 "s" "r" [c4Item Q] ""

/-! ### Concrete scenarios used to settle the claims about the return
handler -/

/-- A transaction of cashier `"c"` with a single original line item:
4 units of product `"P"` at 90 each, no discount, line total 360. -/
def txFour : Transaction :=
  { id := "t1", cashierId := "c",
    items := [⟨"P", "N", "K", "cat", 4, 90, 0, 360⟩],
    returnedItems := [], subtotal := 360, overallDiscount := 0,
    totalAmount := 360, cashReceived := 360, change := 0,
    status := .completed }

/-- A transaction of cashier `"c"` with one original item of quantity 2
(price 100, line total 200). -/
def txTwo : Transaction :=
  { id := "t2", cashierId := "c",
    items := [⟨"P", "N", "K", "cat", 2, 100, 0, 200⟩],
    returnedItems := [], subtotal := 200, overallDiscount := 0,
    totalAmount := 200, cashReceived := 200, change := 0,
    status := .completed }

/-- A fully discountable transaction: one item of quantity 1 with line
total 100, overall discount 20, total amount 80. -/
def txDisc : Transaction :=
  { id := "t3", cashierId := "c",
    items := [⟨"P", "N", "K", "cat", 1, 100, 0, 100⟩],
    returnedItems := [], subtotal := 100, overallDiscount := 20,
    totalAmount := 80, cashReceived := 80, change := 0,
    status := .completed }

/-- A pending lot of cashier `"c"` holding 5 units of `"P"` at 100. -/
def lotPending : Distribution :=
  { id := 1, adminId := "a", cashierId := "c",
    items := [⟨"P", "N", "K", "cat", 5, 100, 500⟩], totalValue := 500,
    notes := "", status := .pending, createdAt := 1 }

/-- A cancelled lot of cashier `"c"`, newer than `lotPending`, still
holding a line item for `"P"` (2 units at 100). -/
def lotCancelled : Distribution :=
  { id := 2, adminId := "a", cashierId := "c",
    items := [⟨"P", "N", "K", "cat", 2, 100, 200⟩], totalValue := 200,
    notes := "", status := .cancelled, createdAt := 2 }

/-- The line item pushed by the reinstatement fallback when the target lot
has no line item for the product. -/
def fallbackItem (orig : TransactionItem) (r : ℚ) : DistItem :=
  { productId := orig.productId, productName := orig.productName,
    productSku := orig.productSku, category := orig.category,
    quantity := r, price := orig.price, totalValue := r * orig.price }

theorem c4LotAfter_id (i : Nat) (t : ℤ) (q r : ℚ) :
    (c4LotAfter i t q r).id = i := by
  unfold c4LotAfter; split <;> rfl

theorem c4LotAfter_cashierId (i : Nat) (t : ℤ) (q r : ℚ) :
    (c4LotAfter i t q r).cashierId = "s" := by
  unfold c4LotAfter; split <;> rfl

theorem c4LotAfter_pidQty (i : Nat) (t : ℤ) (q r : ℚ) :
    pidQty "P" (c4LotAfter i t q r) = q - min r q := by
  unfold c4LotAfter
  split
  · next h => simp [pidQty, itemsPidSum, min_eq_right h]
  · next h =>
    have h' : r ≤ q := le_of_not_le h
    simp [pidQty, itemsPidSum, min_eq_left h']

theorem c4LotAfter_closed (i : Nat) (t : ℤ) (q r : ℚ) (h : q ≤ r) :
    (c4LotAfter i t q r).items = [] ∧
    (c4LotAfter i t q r).status = .cancelled := by
  unfold c4LotAfter
  rw [if_pos h]
  exact ⟨rfl, rfl⟩

theorem fifoWalk_nonpos (pid : String) (d : Distribution)
    (rest : List Distribution) (r : ℚ) (h : r ≤ 0) :
    fifoWalk pid (d :: rest) r = d :: rest := by
  unfold fifoWalk
  rw [if_pos h]

/-- One step of the FIFO walk on a scenario lot. -/
theorem c4_fifoWalk_step (i : Nat) (t : ℤ) (q r : ℚ)
    (rest : List Distribution) (hq : 0 < q) (hr : 0 < r) :
    fifoWalk "P" (c4Lot i t q :: rest) r =
      c4LotAfter i t q r :: fifoWalk "P" rest (r - min r q) := by
  have hr' : ¬ r ≤ 0 := not_le.mpr hr
  by_cases hqr : q ≤ r
  · simp [fifoWalk, c4Lot, c4LotAfter, updateFirstItem, hr', hq, hqr,
      min_eq_right hqr]
  · have hlt : r < q := lt_of_not_le hqr
    have hne : q - r ≠ 0 := sub_ne_zero_of_ne hlt.ne'
    simp [fifoWalk, c4Lot, c4LotAfter, updateFirstItem, hr', hq, hqr,
      min_eq_left hlt.le, hne]

/-- Shape of a successful run of the FIFO scenario, in terms of the
depleted sender lots `X1 X2 X3`. -/
theorem c4_success_shape (q1 q2 q3 Q : ℚ) (X1 X2 X3 : Distribution)
    (hQ : 0 < Q)
    (hstock : ¬ senderStockOf [c4Lot 1 1 q1, c4Lot 2 2 q2, c4Lot 3 3 q3] "P" < Q)
    (hdep : depleteAll [c4Lot 1 1 q1, c4Lot 2 2 q2, c4Lot 3 3 q3] [c4Item Q]
      = [X1, X2, X3])
    (h1 : X1.id = 1) (h2 : X2.id = 2) (h3 : X3.id = 3)
    (hc1 : X1.cashierId = "s") (hc2 : X2.cashierId = "s")
    (hc3 : X3.cashierId = "s") :
    c4Run q1 q2 q3 Q =
      ⟨none, ⟨[X1, X2, X3,
        { id := 4, adminId := "s", cashierId := "r",
          items := [⟨"P", "N", "K", "cat", Q, 100, 100 * Q⟩],
          totalValue := 100 * Q, notes := "Distribution from cashier",
          status := .delivered, createdAt := 9 }], 5⟩⟩ := by
  have hQ0 : (Q : ℚ) ≠ 0 := ne_of_gt hQ
  have hfilter : (List.filter
      (fun d => decide (d.cashierId = "s" ∧ isActiveLot d))
      [c4Lot 1 1 q1, c4Lot 2 2 q2, c4Lot 3 3 q3])
      = [c4Lot 1 1 q1, c4Lot 2 2 q2, c4Lot 3 3 q3] := by
    simp [c4Lot, isActiveLot]
  have hwb : writeBack [c4Lot 1 1 q1, c4Lot 2 2 q2, c4Lot 3 3 q3]
      [X1, X2, X3] = [X1, X2, X3] := by
    simp [writeBack, c4Lot, List.find?, h1, h2, h3]
  have hrecv : (List.filter
      (fun d => decide (d.cashierId = "r" ∧ isActiveLot d)) [X1, X2, X3])
      = [] := by
    simp [hc1, hc2, hc3]
  simp only [c4Run, c4State, transferStock]
  rw [if_neg (by simp [c4Item]), if_neg (by simp), if_neg (by simp [c4Item, hQ0])]
  simp only [hfilter]
  rw [if_neg (by simp [c4Item]; exact not_lt.mp hstock)]
  rw [hdep, hwb, hrecv]
  simp [itemsToAddOf, c4Item]

/-- Claim C4: depleting `Q` from three active lots with quantities
`q1, q2, q3` (createdAt 1 < 2 < 3, `Q ≤ q1+q2+q3`) removes `min Q q1`
from the oldest lot, the remainder of the demand from the second lot,
and touches the third only if `q1 + q2 < Q`; an emptied line item is
removed and an emptied lot becomes cancelled. -/
theorem c4_fifo_depletion (q1 q2 q3 Q : ℚ)
    (h1 : 0 < q1) (h2 : 0 < q2) (h3 : 0 < q3) (hQ : 0 < Q)
    (hle : Q ≤ q1 + q2 + q3) :
    (c4Run q1 q2 q3 Q).err = none ∧
    (c4Run q1 q2 q3 Q).state.lots.length = 4 ∧
    pidQty "P" ((c4Run q1 q2 q3 Q).state.lots.getD 0 dDist)
      = q1 - min Q q1 ∧
    pidQty "P" ((c4Run q1 q2 q3 Q).state.lots.getD 1 dDist)
      = q2 - min (Q - min Q q1) q2 ∧
    pidQty "P" ((c4Run q1 q2 q3 Q).state.lots.getD 2 dDist)
      = q3 - (Q - min Q q1 - min (Q - min Q q1) q2) ∧
    (Q ≤ q1 + q2 →
      (c4Run q1 q2 q3 Q).state.lots.getD 2 dDist = c4Lot 3 3 q3) ∧
    (q1 ≤ Q →
      ((c4Run q1 q2 q3 Q).state.lots.getD 0 dDist).items = [] ∧
      ((c4Run q1 q2 q3 Q).state.lots.getD 0 dDist).status = .cancelled) ∧
    (q1 + q2 ≤ Q →
      ((c4Run q1 q2 q3 Q).state.lots.getD 1 dDist).items = [] ∧
      ((c4Run q1 q2 q3 Q).state.lots.getD 1 dDist).status = .cancelled) := by
  have hsum : senderStockOf [c4Lot 1 1 q1, c4Lot 2 2 q2, c4Lot 3 3 q3] "P"
      = q1 + q2 + q3 := by
    simp [senderStockOf, itemsPidSum, c4Lot]
    ring
  have hstock : ¬ senderStockOf [c4Lot 1 1 q1, c4Lot 2 2 q2, c4Lot 3 3 q3] "P" < Q := by
    rw [hsum]; exact not_lt.mpr hle
  have hsort : sortByCreatedAtAsc [c4Lot 1 1 q1, c4Lot 2 2 q2, c4Lot 3 3 q3]
      = [c4Lot 1 1 q1, c4Lot 2 2 q2, c4Lot 3 3 q3] := by
    norm_num [sortByCreatedAtAsc, insertDistAsc, c4Lot]
  rcases le_or_lt Q q1 with hA | hA
  · -- the oldest lot covers the whole demand
    have hdep : depleteAll [c4Lot 1 1 q1, c4Lot 2 2 q2, c4Lot 3 3 q3] [c4Item Q]
        = [c4LotAfter 1 1 q1 Q, c4Lot 2 2 q2, c4Lot 3 3 q3] := by
      simp only [depleteAll, depleteOne, c4Item]
      rw [hsort, c4_fifoWalk_step 1 1 q1 Q _ h1 hQ, min_eq_left hA, sub_self,
        fifoWalk_nonpos _ _ _ _ le_rfl]
    have hrun := c4_success_shape q1 q2 q3 Q _ _ _ hQ hstock hdep
      (c4LotAfter_id 1 1 q1 Q) rfl rfl (c4LotAfter_cashierId 1 1 q1 Q) rfl rfl
    rw [hrun]
    have hm1 : min Q q1 = Q := min_eq_left hA
    have hm2 : min (0 : ℚ) q2 = 0 := min_eq_left h2.le
    refine ⟨rfl, rfl, ?_, ?_, ?_, ?_, ?_, ?_⟩
    · simpa using c4LotAfter_pidQty 1 1 q1 Q
    · simp [pidQty, itemsPidSum, c4Lot, hm1, hm2]
    · simp [pidQty, itemsPidSum, c4Lot, hm1, hm2]
    · intro _; rfl
    · intro hq1Q
      simpa using c4LotAfter_closed 1 1 q1 Q hq1Q
    · intro hc; exfalso; linarith
  · rcases le_or_lt Q (q1 + q2) with hB | hB
    · -- the second lot absorbs the remainder
      have hpos2 : (0 : ℚ) < Q - q1 := by linarith
      have hdep : depleteAll [c4Lot 1 1 q1, c4Lot 2 2 q2, c4Lot 3 3 q3] [c4Item Q]
          = [c4LotAfter 1 1 q1 Q, c4LotAfter 2 2 q2 (Q - q1), c4Lot 3 3 q3] := by
        simp only [depleteAll, depleteOne, c4Item]
        rw [hsort, c4_fifoWalk_step 1 1 q1 Q _ h1 hQ, min_eq_right hA.le,
          c4_fifoWalk_step 2 2 q2 (Q - q1) _ h2 hpos2,
          min_eq_left (by linarith : Q - q1 ≤ q2), sub_self,
          fifoWalk_nonpos _ _ _ _ le_rfl]
      have hrun := c4_success_shape q1 q2 q3 Q _ _ _ hQ hstock hdep
        (c4LotAfter_id 1 1 q1 Q) (c4LotAfter_id 2 2 q2 (Q - q1)) rfl
        (c4LotAfter_cashierId 1 1 q1 Q) (c4LotAfter_cashierId 2 2 q2 (Q - q1)) rfl
      rw [hrun]
      have hm1 : min Q q1 = q1 := min_eq_right hA.le
      have hmB : min (Q - q1) q2 = Q - q1 := min_eq_left (by linarith)
      refine ⟨rfl, rfl, ?_, ?_, ?_, ?_, ?_, ?_⟩
      · simpa using c4LotAfter_pidQty 1 1 q1 Q
      · simpa [hm1] using c4LotAfter_pidQty 2 2 q2 (Q - q1)
      · simp [pidQty, itemsPidSum, c4Lot, hm1, hmB]
      · intro _; rfl
      · intro hq1Q
        simpa using c4LotAfter_closed 1 1 q1 Q hq1Q
      · intro hc
        simpa using c4LotAfter_closed 2 2 q2 (Q - q1) (by linarith)
    · -- the third lot is reached
      have hpos2 : (0 : ℚ) < Q - q1 := by linarith
      have hpos3 : (0 : ℚ) < Q - q1 - q2 := by linarith
      have hdep : depleteAll [c4Lot 1 1 q1, c4Lot 2 2 q2, c4Lot 3 3 q3] [c4Item Q]
          = [c4LotAfter 1 1 q1 Q, c4LotAfter 2 2 q2 (Q - q1),
             c4LotAfter 3 3 q3 (Q - q1 - q2)] := by
        simp only [depleteAll, depleteOne, c4Item]
        rw [hsort, c4_fifoWalk_step 1 1 q1 Q _ h1 hQ, min_eq_right hA.le,
          c4_fifoWalk_step 2 2 q2 (Q - q1) _ h2 hpos2,
          min_eq_right (by linarith : q2 ≤ Q - q1),
          c4_fifoWalk_step 3 3 q3 (Q - q1 - q2) _ h3 hpos3]
        rfl
      have hrun := c4_success_shape q1 q2 q3 Q _ _ _ hQ hstock hdep
        (c4LotAfter_id 1 1 q1 Q) (c4LotAfter_id 2 2 q2 (Q - q1))
        (c4LotAfter_id 3 3 q3 (Q - q1 - q2))
        (c4LotAfter_cashierId 1 1 q1 Q) (c4LotAfter_cashierId 2 2 q2 (Q - q1))
        (c4LotAfter_cashierId 3 3 q3 (Q - q1 - q2))
      rw [hrun]
      have hm1 : min Q q1 = q1 := min_eq_right hA.le
      have hmB : min (Q - q1) q2 = q2 := min_eq_right (by linarith)
      have hmc : min (Q - q1 - q2) q3 = Q - q1 - q2 :=
        min_eq_left (by linarith)
      refine ⟨rfl, rfl, ?_, ?_, ?_, ?_, ?_, ?_⟩
      · simpa using c4LotAfter_pidQty 1 1 q1 Q
      · simpa [hm1] using c4LotAfter_pidQty 2 2 q2 (Q - q1)
      · simpa [hm1, hmB, hmc] using c4LotAfter_pidQty 3 3 q3 (Q - q1 - q2)
      · intro hc; exfalso; linarith
      · intro hq1Q
        simpa using c4LotAfter_closed 1 1 q1 Q hq1Q
      · intro hc
        simpa using c4LotAfter_closed 2 2 q2 (Q - q1) (by linarith)

/-- Witness for C4 at the spec's scenario quantities 5, 5, 5 with a
demand of 7. -/
theorem c4_witness :
    (0 : ℚ) < 5 ∧ (0 : ℚ) < 7 ∧ (7 : ℚ) ≤ 5 + 5 + 5 ∧
    ((c4Run 5 5 5 7).err = none ∧
     (c4Run 5 5 5 7).state.lots.length = 4 ∧
     pidQty "P" ((c4Run 5 5 5 7).state.lots.getD 0 dDist)
       = 5 - min 7 5 ∧
     pidQty "P" ((c4Run 5 5 5 7).state.lots.getD 1 dDist)
       = 5 - min (7 - min 7 5) 5 ∧
     pidQty "P" ((c4Run 5 5 5 7).state.lots.getD 2 dDist)
       = 5 - (7 - min 7 5 - min (7 - min 7 5) 5) ∧
     ((7 : ℚ) ≤ 5 + 5 →
       (c4Run 5 5 5 7).state.lots.getD 2 dDist = c4Lot 3 3 5) ∧
     ((5 : ℚ) ≤ 7 →
       ((c4Run 5 5 5 7).state.lots.getD 0 dDist).items = [] ∧
       ((c4Run 5 5 5 7).state.lots.getD 0 dDist).status = .cancelled) ∧
     ((5 : ℚ) + 5 ≤ 7 →
       ((c4Run 5 5 5 7).state.lots.getD 1 dDist).items = [] ∧
       ((c4Run 5 5 5 7).state.lots.getD 1 dDist).status = .cancelled)) :=
  ⟨by norm_num, by norm_num, by norm_num,
    c4_fifo_depletion 5 5 5 7 (by norm_num) (by norm_num) (by norm_num)
      (by norm_num) (by norm_num)⟩

/-- Claim C10: `transferStock` rejects every request in which the sender
cashier id equals the receiver cashier id, leaving the distribution
collection unchanged, so a cashier can never transfer stock to
themselves. -/
theorem c10_self_transfer_rejected (st : DistState) (now : ℤ)
    (cashier : String) (items : List TransferItem) (notes : String) :
    (transferStock st now cashier cashier items notes).err.isSome = true ∧
    (transferStock st now cashier cashier items notes).state = st := by
  unfold transferStock
  split
  · exact ⟨rfl, rfl⟩
  · rw [if_pos rfl]
    exact ⟨rfl, rfl⟩

/-- Witness for C10 at a concrete input. -/
theorem c10_witness :
    (transferStock ⟨[], 0⟩ 0 "c1" "c1"
      [⟨"p", "n", "s", "cat", 1, 2⟩] "").err.isSome = true ∧
    (transferStock ⟨[], 0⟩ 0 "c1" "c1"
      [⟨"p", "n", "s", "cat", 1, 2⟩] "").state = (⟨[], 0⟩ : DistState) :=
  c10_self_transfer_rejected ⟨[], 0⟩ 0 "c1" [⟨"p", "n", "s", "cat", 1, 2⟩] ""

/-- Claim C3: if any requested product's available stock for the sender is
below the requested quantity, the whole transfer is rejected and no lot
is changed; all availability checks precede any mutation. -/
theorem c3_transfer_rejected_on_shortfall (st : DistState) (now : ℤ)
    (sender receiver : String) (items : List TransferItem) (notes : String)
    (h : ∃ it ∈ items, availableStock st sender it.productId < it.quantity) :
    (transferStock st now sender receiver items notes).err.isSome = true ∧
    (transferStock st now sender receiver items notes).state = st := by
  unfold transferStock
  split
  · exact ⟨rfl, rfl⟩
  · split
    · exact ⟨rfl, rfl⟩
    · split
      · exact ⟨rfl, rfl⟩
      · rw [if_pos]
        · exact ⟨rfl, rfl⟩
        · rcases h with ⟨it, hmem, hlt⟩
          exact List.any_eq_true.mpr ⟨it, hmem, decide_eq_true hlt⟩

/-- Witness for C3: a sender holding 2 units cannot send 5. -/
theorem c3_witness :
    (availableStock
        ⟨[{ id := 1, adminId := "a", cashierId := "s",
            items := [⟨"p", "n", "k", "cat", 2, 10, 20⟩], totalValue := 20,
            notes := "", status := .pending, createdAt := 0 }], 2⟩
        "s" "p" < (5 : ℚ)) ∧
    (transferStock
        ⟨[{ id := 1, adminId := "a", cashierId := "s",
            items := [⟨"p", "n", "k", "cat", 2, 10, 20⟩], totalValue := 20,
            notes := "", status := .pending, createdAt := 0 }], 2⟩
        0 "s" "r" [⟨"p", "n", "k", "cat", 5, 10⟩] "").err.isSome = true := by
  have hlt : availableStock
      ⟨[{ id := 1, adminId := "a", cashierId := "s",
          items := [⟨"p", "n", "k", "cat", 2, 10, 20⟩], totalValue := 20,
          notes := "", status := .pending, createdAt := 0 }], 2⟩
      "s" "p" < (5 : ℚ) := by
    norm_num [availableStock, senderStockOf, itemsPidSum, isActiveLot]
  refine ⟨hlt, ?_⟩
  exact (c3_transfer_rejected_on_shortfall _ 0 "s" "r" _ ""
    ⟨⟨"p", "n", "k", "cat", 5, 10⟩, by simp, hlt⟩).1

/-! ### Lemmas about the return handler -/

theorem finalizeTx_returnedItems (tx : Transaction) (total : ℚ)
    (ni : List ReturnedItem) :
    (finalizeTx tx total ni).returnedItems = tx.returnedItems ++ ni := by
  simp only [finalizeTx]
  split <;> rfl

theorem finalizeTx_items (tx : Transaction) (total : ℚ)
    (ni : List ReturnedItem) :
    (finalizeTx tx total ni).items = tx.items := by
  simp only [finalizeTx]
  split <;> rfl

theorem finalizeTx_subtotal (tx : Transaction) (total : ℚ)
    (ni : List ReturnedItem) :
    (finalizeTx tx total ni).subtotal = max 0 (tx.subtotal - total) := by
  simp only [finalizeTx]
  split <;> rfl

theorem finalizeTx_totalAmount (tx : Transaction) (total : ℚ)
    (ni : List ReturnedItem) :
    (finalizeTx tx total ni).totalAmount = max 0 (tx.totalAmount - total) := by
  simp only [finalizeTx]
  split <;> rfl

theorem finalizeTx_overallDiscount (tx : Transaction) (total : ℚ)
    (ni : List ReturnedItem) :
    (finalizeTx tx total ni).overallDiscount = tx.overallDiscount := by
  simp only [finalizeTx]
  split <;> rfl

theorem finalizeTx_status (tx : Transaction) (total : ℚ)
    (ni : List ReturnedItem) :
    (finalizeTx tx total ni).status =
      if ((tx.items.map TransactionItem.quantity).sum
          ≤ ((tx.returnedItems ++ ni).map ReturnedItem.quantity).sum) then
        TxStatus.refunded
      else tx.status := by
  simp only [finalizeTx]
  split <;> rfl

/-- Equation for the return handler on a nonempty request. -/
theorem processReturn_eq (tx : Transaction) (st : DistState) (now : ℤ)
    (reqs : List ReturnRequest) (hnil : reqs ≠ []) :
    processReturn tx st now reqs =
      (match returnLoop tx now st 0 [] reqs with
       | ⟨some e, st1, _, _⟩ => ⟨some e, tx, 0, st1⟩
       | ⟨none, st1, total, newItems⟩ =>
         if validSaveTransaction (finalizeTx tx total newItems) then
           ⟨none, finalizeTx tx total newItems, total, st1⟩
         else ⟨some "Failed to process return", tx, 0, st1⟩) := by
  unfold processReturn
  rw [if_neg hnil]
  rcases hh : returnLoop tx now st 0 [] reqs with ⟨oe, st1, tot, ni⟩
  cases oe <;> rfl

/-- Characterization of a successful run of the return handler. -/
theorem processReturn_success (tx : Transaction) (st : DistState) (now : ℤ)
    (reqs : List ReturnRequest)
    (h : (processReturn tx st now reqs).err = none) :
    ∃ st1 total newItems,
      returnLoop tx now st 0 [] reqs = ⟨none, st1, total, newItems⟩ ∧
      validSaveTransaction (finalizeTx tx total newItems) ∧
      processReturn tx st now reqs
        = ⟨none, finalizeTx tx total newItems, total, st1⟩ := by
  have hnil : reqs ≠ [] := by
    intro he
    rw [he] at h
    simp [processReturn] at h
  have he := processReturn_eq tx st now reqs hnil
  cases hloop : returnLoop tx now st 0 [] reqs with
  | mk oe st1 tot ni =>
    rw [hloop] at he
    cases oe with
    | some e =>
      rw [he] at h
      simp at h
    | none =>
      simp only [] at he
      by_cases hv : validSaveTransaction (finalizeTx tx tot ni)
      · rw [if_pos hv] at he
        exact ⟨st1, tot, ni, rfl, hv, he⟩
      · rw [if_neg hv] at he
        rw [he] at h
        simp at h

/-- Induction facts about a run of the per-line loop that reported no
error: every line passed the index check, and the accumulated records,
refunds and total follow the per-line formulas. -/
theorem returnLoop_none_spec (tx : Transaction) (now : ℤ)
    (reqs : List ReturnRequest) :
    ∀ (st : DistState) (total : ℚ) (acc : List ReturnedItem),
      (returnLoop tx now st total acc reqs).err = none →
      ((returnLoop tx now st total acc reqs).newItems.map ReturnedItem.quantity
          = acc.map ReturnedItem.quantity ++ reqs.map ReturnRequest.quantity) ∧
      ((returnLoop tx now st total acc reqs).newItems.map ReturnedItem.returnAmount
          = acc.map ReturnedItem.returnAmount ++ reqs.map (lineRefund tx)) ∧
      ((returnLoop tx now st total acc reqs).total
          = total + (reqs.map (lineRefund tx)).sum) ∧
      (∀ r ∈ reqs, 0 ≤ r.itemIndex ∧ r.itemIndex < (tx.items.length : ℤ)) := by
  induction reqs with
  | nil =>
    intro st total acc _
    simp [returnLoop]
  | cons req rest ih =>
    intro st total acc h
    by_cases hidx : (req.itemIndex < 0 ∨ (tx.items.length : ℤ) ≤ req.itemIndex)
    · exfalso
      simp only [returnLoop] at h
      rw [if_pos hidx] at h
      simp at h
    · by_cases hover : ((tx.items.getD req.itemIndex.toNat dItem).quantity
          - alreadyReturnedFor tx.returnedItems
              (tx.items.getD req.itemIndex.toNat dItem) < req.quantity)
      · exfalso
        simp only [returnLoop] at h
        rw [if_neg hidx, if_pos hover] at h
        simp at h
      · have heq : returnLoop tx now st total acc (req :: rest)
            = returnLoop tx now
                (reinstate st tx.cashierId
                  (tx.items.getD req.itemIndex.toNat dItem) req.quantity)
                (total + (tx.items.getD req.itemIndex.toNat dItem).total
                  / (tx.items.getD req.itemIndex.toNat dItem).quantity
                  * req.quantity)
                (acc ++ [{ productId := (tx.items.getD req.itemIndex.toNat dItem).productId,
                           productName := (tx.items.getD req.itemIndex.toNat dItem).productName,
                           productSku := (tx.items.getD req.itemIndex.toNat dItem).productSku,
                           category := (tx.items.getD req.itemIndex.toNat dItem).category,
                           quantity := req.quantity,
                           price := (tx.items.getD req.itemIndex.toNat dItem).price,
                           discount := (tx.items.getD req.itemIndex.toNat dItem).discount,
                           total := (tx.items.getD req.itemIndex.toNat dItem).total,
                           returnAmount := (tx.items.getD req.itemIndex.toNat dItem).total
                             / (tx.items.getD req.itemIndex.toNat dItem).quantity
                             * req.quantity,
                           description :=
                             if req.description = "" then "No reason provided"
                             else req.description,
                           returnedAt := now }]) rest := by
          simp only [returnLoop]
          rw [if_neg hidx, if_neg hover]
        rw [heq] at h ⊢
        obtain ⟨hq, ha, ht, hb⟩ := ih _ _ _ h
        push_neg at hidx
        refine ⟨?_, ?_, ?_, ?_⟩
        · rw [hq]
          simp [lineRefund]
        · rw [ha]
          simp [lineRefund]
        · rw [ht]
          simp only [List.map_cons, List.sum_cons, lineRefund]
          ring
        · intro r hr
          rcases List.mem_cons.mp hr with hr | hr
          · subst hr
            exact ⟨hidx.1, hidx.2⟩
          · exact hb r hr

/-! ### Lemmas about the reinstatement preference (claim C5) -/

theorem map_self_of {α : Type} (g : α → α) :
    ∀ (l : List α), (∀ a ∈ l, g a = a) → l.map g = l
  | [], _ => rfl
  | a :: l, h => by
    rw [List.map_cons, h a (List.mem_cons_self a l),
      map_self_of g l fun b hb => h b (List.mem_cons_of_mem a hb)]

theorem find?_append_of_all_neg {α : Type} (p : α → Bool) (l1 l2 : List α)
    (h : ∀ a ∈ l1, p a = false) :
    (l1 ++ l2).find? p = l2.find? p := by
  induction l1 with
  | nil => rfl
  | cons a l ih =>
    rw [List.cons_append, List.find?_cons, h a (List.mem_cons_self a l)]
    exact ih fun b hb => h b (List.mem_cons_of_mem a hb)

theorem exists_first_split {α : Type} (P : α → Prop) :
    ∀ (l : List α), (∃ a ∈ l, P a) →
      ∃ l1 a l2, l = l1 ++ a :: l2 ∧ P a ∧ ∀ b ∈ l1, ¬ P b
  | [], h => absurd h (by simp)
  | a :: l, h => by
    by_cases ha : P a
    · exact ⟨[], a, l, rfl, ha, by simp⟩
    · have hl : ∃ b ∈ l, P b := by
        obtain ⟨b, hb, hPb⟩ := h
        rcases List.mem_cons.mp hb with rfl | hb
        · exact absurd hPb ha
        · exact ⟨b, hb, hPb⟩
      obtain ⟨l1, b, l2, hsp, hPb, hpre⟩ := exists_first_split P l hl
      refine ⟨a :: l1, b, l2, by rw [hsp, List.cons_append], hPb, ?_⟩
      intro c hc
      rcases List.mem_cons.mp hc with rfl | hc
      · exact ha
      · exact hpre c hc

theorem insertDistDesc_perm (x : Distribution) :
    ∀ (l : List Distribution), List.Perm (insertDistDesc x l) (x :: l)
  | [] => List.Perm.refl _
  | y :: ys => by
    unfold insertDistDesc
    split
    · exact ((insertDistDesc_perm x ys).cons y).trans (List.Perm.swap x y ys)
    · exact List.Perm.refl _

theorem sortByCreatedAtDesc_perm :
    ∀ (l : List Distribution), List.Perm (sortByCreatedAtDesc l) l
  | [] => List.Perm.refl _
  | x :: xs =>
    (insertDistDesc_perm x (sortByCreatedAtDesc xs)).trans
      ((sortByCreatedAtDesc_perm xs).cons x)

theorem itemsPidSum_append (pid : String) (a b : List DistItem) :
    itemsPidSum pid (a ++ b) = itemsPidSum pid a + itemsPidSum pid b := by
  simp [itemsPidSum]

/-- The inner reinstatement loop is the identity when no line item matches
the product. -/
theorem addBackItems_no_match (pid : String) (q : ℚ) :
    ∀ (items : List DistItem) (r : ℚ),
      (∀ it ∈ items, it.productId ≠ pid) →
      addBackItems pid q items r = (items, r)
  | [], r, _ => rfl
  | di :: rest, r, h => by
    unfold addBackItems
    rw [if_neg (h di (List.mem_cons_self di rest))]
    rw [addBackItems_no_match pid q rest r
      fun it hit => h it (List.mem_cons_of_mem di hit)]

/-- When some line item matches the product and `0 < r ≤ q`, the inner
loop adds the whole `r` to the first matching item and stops. -/
theorem addBackItems_match (pid : String) (q : ℚ) :
    ∀ (items : List DistItem) (r : ℚ),
      (∃ it ∈ items, it.productId = pid) → 0 < r → r ≤ q →
      ∃ items1, addBackItems pid q items r = (items1, 0) ∧
        itemsPidSum pid items1 = itemsPidSum pid items + r ∧
        items1.length = items.length
  | [], r, h, _, _ => absurd h (by simp)
  | di :: rest, r, h, hr, hrq => by
    by_cases hdi : di.productId = pid
    · refine ⟨{ di with quantity := di.quantity + min r q,
                        totalValue := (di.quantity + min r q) * di.price } :: rest,
        ?_, ?_, by simp⟩
      · unfold addBackItems
        rw [if_pos hdi]
        have : r - min r q = 0 := by rw [min_eq_left hrq]; ring
        simp only [this]
        rw [if_pos le_rfl]
      · rw [min_eq_left hrq]
        simp [itemsPidSum, hdi]
        ring
    · have hrest : ∃ it ∈ rest, it.productId = pid := by
        obtain ⟨it, hit, hip⟩ := h
        rcases List.mem_cons.mp hit with rfl | hit
        · exact absurd hip hdi
        · exact ⟨it, hit, hip⟩
      obtain ⟨rest1, heq, hsum, hlen⟩ := addBackItems_match pid q rest r hrest hr hrq
      refine ⟨di :: rest1, ?_, ?_, by simp [hlen]⟩
      · unfold addBackItems
        rw [if_neg hdi, heq]
      · simp only [itemsPidSum, List.filter_cons] at hsum ⊢
        by_cases hb : (di.productId == pid) = true
        · exact absurd (by simpa using hb) hdi
        · rw [Bool.not_eq_true] at hb
          simpa [hb] using hsum

/-- A lot with no items or no line item for the product is left untouched
by the reinstatement step. -/
theorem reinstLot_no_match (pid : String) (q : ℚ) (d : Distribution) (r : ℚ)
    (h : d.items = [] ∨ ∀ it ∈ d.items, it.productId ≠ pid) :
    reinstLot pid q d r = (d, r) := by
  unfold reinstLot
  rcases h with h | h
  · rw [if_neg (by simp [h])]
  · by_cases hnil : d.items = []
    · rw [if_neg (by simp [hnil])]
    · rw [if_pos (by simpa using hnil)]
      rw [addBackItems_no_match pid q d.items r h]
      simp

/-- A lot holding a line item for the product absorbs the whole remaining
quantity `r` (for `0 < r ≤ q`): its product quantity grows by `r`, its
id is kept, and a non-cancelled status is unchanged. -/
theorem reinstLot_match (pid : String) (q : ℚ) (d : Distribution) (r : ℚ)
    (hne : d.items ≠ []) (h : ∃ it ∈ d.items, it.productId = pid)
    (hr : 0 < r) (hrq : r ≤ q) :
    ∃ d1, reinstLot pid q d r = (d1, 0) ∧ d1.id = d.id ∧
      d1.cashierId = d.cashierId ∧
      pidQty pid d1 = pidQty pid d + r ∧
      d1.items.length = d.items.length ∧
      (d.status ≠ .cancelled → d1.status = d.status) := by
  obtain ⟨items1, heq, hsum, hlen⟩ := addBackItems_match pid q d.items r h hr hrq
  refine ⟨{ d with items := items1,
                   status := if d.status = .cancelled then .pending else d.status,
                   totalValue := ((items1.map fun di => di.quantity * di.price).sum) },
    ?_, rfl, rfl, ?_, by simpa using hlen, ?_⟩
  · unfold reinstLot
    rw [if_pos (by simpa using hne), heq]
    simp only []
    rw [if_pos hr]
  · simpa [pidQty] using hsum
  · intro hc
    simp [hc]

/-- The outer reinstatement loop stops immediately when nothing remains. -/
theorem reinstLoop_nonpos (pid : String) (q : ℚ) (l : List Distribution)
    (r : ℚ) (h : r ≤ 0) : reinstLoop pid q l r = (l, r) := by
  cases l with
  | nil => rfl
  | cons d rest => unfold reinstLoop; rw [if_pos h]

/-- The outer loop is the identity when no lot holds a line item for the
product. -/
theorem reinstLoop_no_match (pid : String) (q : ℚ) :
    ∀ (l : List Distribution) (r : ℚ),
      (∀ d ∈ l, d.items = [] ∨ ∀ it ∈ d.items, it.productId ≠ pid) →
      reinstLoop pid q l r = (l, r)
  | [], r, _ => rfl
  | d :: rest, r, h => by
    by_cases hr : r ≤ 0
    · exact reinstLoop_nonpos pid q (d :: rest) r hr
    · unfold reinstLoop
      rw [if_neg hr]
      rw [reinstLot_no_match pid q d r (h d (List.mem_cons_self d rest))]
      simp only []
      rw [reinstLoop_no_match pid q rest r
        fun b hb => h b (List.mem_cons_of_mem d hb)]

/-- When the first lot (in scan order) holding a line item for the product
sits between a prefix of non-matching lots and a suffix, the outer loop
updates exactly that lot, adding the full quantity to it. -/
theorem reinstLoop_first_match (pid : String) (q : ℚ) (hq : 0 < q) :
    ∀ (l1 : List Distribution) (d₀ : Distribution) (l2 : List Distribution),
      (∀ d ∈ l1, d.items = [] ∨ ∀ it ∈ d.items, it.productId ≠ pid) →
      d₀.items ≠ [] → (∃ it ∈ d₀.items, it.productId = pid) →
      ∃ d₀', reinstLoop pid q (l1 ++ d₀ :: l2) q = (l1 ++ d₀' :: l2, 0) ∧
        d₀'.id = d₀.id ∧ pidQty pid d₀' = pidQty pid d₀ + q ∧
        d₀'.items.length = d₀.items.length ∧
        (d₀.status ≠ .cancelled → d₀'.status = d₀.status)
  | [], d₀, l2, _, hne, hmatch => by
    obtain ⟨d1, heq, hid, _, hpid, hlen, hstat⟩ :=
      reinstLot_match pid q d₀ q hne hmatch hq le_rfl
    refine ⟨d1, ?_, hid, hpid, hlen, hstat⟩
    rw [List.nil_append, List.nil_append]
    unfold reinstLoop
    rw [if_neg (not_le.mpr hq), heq]
    simp only []
    rw [reinstLoop_nonpos pid q l2 0 le_rfl]
  | d :: l1, d₀, l2, hpre, hne, hmatch => by
    obtain ⟨d₀', hloop, hid, hpid, hlen, hstat⟩ :=
      reinstLoop_first_match pid q hq l1 d₀ l2
        (fun b hb => hpre b (List.mem_cons_of_mem d hb)) hne hmatch
    refine ⟨d₀', ?_, hid, hpid, hlen, hstat⟩
    rw [List.cons_append]
    unfold reinstLoop
    rw [if_neg (not_le.mpr hq)]
    rw [reinstLot_no_match pid q d q (hpre d (List.mem_cons_self d l1))]
    simp only []
    rw [hloop, List.cons_append]

/-- The fallback update on a lot holding no line item for the product
pushes a new line item: id and cashier are kept, the product quantity
grows by the remainder, and a non-cancelled status is unchanged. -/
theorem applyFallback_no_item (orig : TransactionItem) (r : ℚ)
    (t : Distribution) (h : ∀ it ∈ t.items, it.productId ≠ orig.productId) :
    (applyFallback orig r t).id = t.id ∧
    (applyFallback orig r t).cashierId = t.cashierId ∧
    (applyFallback orig r t).items = t.items ++ [fallbackItem orig r] ∧
    pidQty orig.productId (applyFallback orig r t)
      = pidQty orig.productId t + r ∧
    (t.status ≠ .cancelled → (applyFallback orig r t).status = t.status) ∧
    (t.status = .cancelled → (applyFallback orig r t).status = .pending) := by
  have hfind : (t.items.find? fun di => di.productId == orig.productId)
      = none := by
    rw [List.find?_eq_none]
    intro a ha
    simpa using h a ha
  have happ : applyFallback orig r t =
      { t with
        items := t.items ++ [fallbackItem orig r],
        status := if t.status = .cancelled then .pending else t.status,
        totalValue := (((t.items ++ [fallbackItem orig r]).map
            fun di => di.quantity * di.price).sum) } := by
    unfold applyFallback
    rw [hfind]
    simp [fallbackItem]
  rw [happ]
  refine ⟨rfl, rfl, rfl, ?_, ?_, ?_⟩
  · show itemsPidSum orig.productId (t.items ++ [fallbackItem orig r])
      = itemsPidSum orig.productId t.items + r
    rw [itemsPidSum_append]
    simp [itemsPidSum, fallbackItem]
  · intro hc
    simp [hc]
  · intro hc
    simp [hc]

/-- Saving the updated target lot replaces exactly its occurrence in the
collection when the ids before it differ. -/
theorem replaceFirstById_split (t : Distribution) :
    ∀ (l1 : List Distribution) (d₀ : Distribution) (l2 : List Distribution),
      (∀ d ∈ l1, d.id ≠ t.id) → d₀.id = t.id →
      replaceFirstById t (l1 ++ d₀ :: l2) = l1 ++ t :: l2
  | [], d₀, l2, _, hid => by
    rw [List.nil_append, List.nil_append]
    unfold replaceFirstById
    rw [if_pos hid]
  | d :: l1, d₀, l2, h, hid => by
    rw [List.cons_append]
    unfold replaceFirstById
    rw [if_neg (h d (List.mem_cons_self d l1)),
      replaceFirstById_split t l1 d₀ l2
        (fun b hb => h b (List.mem_cons_of_mem d hb)) hid,
      List.cons_append]

/-- Every distribution status is pending, delivered or cancelled. -/
theorem distStatus_total (d : Distribution) :
    d.status = .pending ∨ d.status = .delivered ∨ d.status = .cancelled := by
  cases h : d.status
  · exact Or.inl rfl
  · exact Or.inr (Or.inl rfl)
  · exact Or.inr (Or.inr rfl)

/-- The scan of the return handler ranges exactly over the cashier's
lots. -/
theorem mem_cashier_scan (st : DistState) (cashier : String)
    (d : Distribution) :
    d ∈ sortByCreatedAtDesc (st.lots.filter fun d =>
      decide (d.cashierId = cashier ∧ (d.status = .pending ∨
        d.status = .delivered ∨ d.status = .cancelled)))
    ↔ (d ∈ st.lots ∧ d.cashierId = cashier) := by
  rw [(sortByCreatedAtDesc_perm _).mem_iff, List.mem_filter]
  constructor
  · intro ⟨h1, h2⟩
    exact ⟨h1, (of_decide_eq_true h2).1⟩
  · intro ⟨h1, h2⟩
    exact ⟨h1, decide_eq_true ⟨h2, distStatus_total d⟩⟩

/-- Ids stay duplicate-free through the scan's filter and sort. -/
theorem scan_ids_nodup (st : DistState) (cashier : String)
    (hid : (st.lots.map Distribution.id).Nodup) :
    ((sortByCreatedAtDesc (st.lots.filter fun d =>
      decide (d.cashierId = cashier ∧ (d.status = .pending ∨
        d.status = .delivered ∨ d.status = .cancelled)))).map
      Distribution.id).Nodup := by
  have hsub : ((st.lots.filter fun d =>
      decide (d.cashierId = cashier ∧ (d.status = .pending ∨
        d.status = .delivered ∨ d.status = .cancelled))).map
      Distribution.id).Nodup :=
    hid.sublist ((List.filter_sublist _).map Distribution.id)
  exact ((sortByCreatedAtDesc_perm _).map Distribution.id).nodup_iff.mpr hsub

/-- A sort that produced the empty list was given the empty list. -/
theorem sortByCreatedAtDesc_eq_nil (l : List Distribution)
    (h : sortByCreatedAtDesc l = []) : l = [] := by
  have hp := sortByCreatedAtDesc_perm l
  rw [h] at hp
  exact hp.symm.eq_nil

/-- The head of the descending sort is most recent: every element of the
input has `createdAt` at most the head's. -/
theorem sortByCreatedAtDesc_head_max :
    ∀ (l : List Distribution) (t : Distribution) (ts : List Distribution),
      sortByCreatedAtDesc l = t :: ts → ∀ d ∈ l, d.createdAt ≤ t.createdAt
  | [], t, ts, h => by simp [sortByCreatedAtDesc] at h
  | x :: xs, t, ts, h => by
    intro d hd
    rw [show sortByCreatedAtDesc (x :: xs)
      = insertDistDesc x (sortByCreatedAtDesc xs) from rfl] at h
    cases hs : sortByCreatedAtDesc xs with
    | nil =>
      rw [hs] at h
      unfold insertDistDesc at h
      injection h with h1 h2
      have hxs : xs = [] := sortByCreatedAtDesc_eq_nil xs hs
      subst hxs
      rcases List.mem_singleton.mp hd with rfl
      exact le_of_eq (by rw [h1])
    | cons y ys =>
      rw [hs] at h
      unfold insertDistDesc at h
      split at h
      · next hxy =>
        injection h with h1 h2
        subst h1
        rcases List.mem_cons.mp hd with rfl | hd
        · exact le_of_lt hxy
        · exact sortByCreatedAtDesc_head_max xs y ys hs d hd
      · next hxy =>
        injection h with h1 h2
        subst h1
        rcases List.mem_cons.mp hd with rfl | hd
        · exact le_refl _
        · exact le_trans (sortByCreatedAtDesc_head_max xs y ys hs d hd)
            (not_lt.mp hxy)

/-- Reinstatement case 1: some scanned lot holds a line item for the
product. The first such lot in scan order absorbs the whole quantity
into its existing line item — no line item is created — and a
non-cancelled status is kept. -/
theorem reinstCore_match_case (orig : TransactionItem) (q : ℚ)
    (dists : List Distribution) (hq : 0 < q)
    (hm : ∃ d ∈ dists, d.items ≠ [] ∧
      ∃ it ∈ d.items, it.productId = orig.productId) :
    ∃ l1 d₀ d₀' l2, dists = l1 ++ d₀ :: l2 ∧
      reinstCore orig q dists = l1 ++ d₀' :: l2 ∧
      d₀'.id = d₀.id ∧
      (∃ it ∈ d₀.items, it.productId = orig.productId) ∧
      d₀'.items.length = d₀.items.length ∧
      (d₀.status ≠ .cancelled → d₀'.status = d₀.status) ∧
      pidQty orig.productId d₀' = pidQty orig.productId d₀ + q := by
  obtain ⟨l1, d₀, l2, hsplit, hPd, hpre⟩ := exists_first_split _ dists hm
  have hpre' : ∀ d ∈ l1, d.items = [] ∨
      ∀ it ∈ d.items, it.productId ≠ orig.productId := by
    intro d hd
    by_cases hnil : d.items = []
    · exact Or.inl hnil
    · right
      intro it hit hip
      exact hpre d hd ⟨hnil, it, hit, hip⟩
  obtain ⟨d₀', hloop, hid', hpid, hlen, hstat⟩ :=
    reinstLoop_first_match orig.productId q hq l1 d₀ l2 hpre' hPd.1 hPd.2
  refine ⟨l1, d₀, d₀', l2, hsplit, ?_, hid', hPd.2, hlen, hstat, hpid⟩
  unfold reinstCore
  rw [hsplit, hloop]
  simp only []
  unfold reinstFallback
  rw [if_neg (by norm_num)]

/-- Reinstatement case 2: no scanned lot holds a line item for the
product, but an active lot exists. The most recent active lot receives
a freshly pushed line item, with its status kept. -/
theorem reinstCore_fallback_active_case (orig : TransactionItem) (q : ℚ)
    (dists : List Distribution) (hq : 0 < q)
    (hnodup : (dists.map Distribution.id).Nodup)
    (hnom : ∀ d ∈ dists, ∀ it ∈ d.items, it.productId ≠ orig.productId)
    (hact : ∃ d ∈ dists, isActiveLot d) :
    ∃ l1 t d₀' l2, dists = l1 ++ t :: l2 ∧
      reinstCore orig q dists = l1 ++ d₀' :: l2 ∧
      isActiveLot t ∧
      (∀ d ∈ dists, isActiveLot d → d.createdAt ≤ t.createdAt) ∧
      d₀'.id = t.id ∧ d₀'.status = t.status ∧
      d₀'.items = t.items ++ [fallbackItem orig q] ∧
      pidQty orig.productId d₀' = pidQty orig.productId t + q := by
  have hloop := reinstLoop_no_match orig.productId q dists q
    fun d hd => Or.inr (hnom d hd)
  obtain ⟨da, hda, hacta⟩ := hact
  have hfa : da ∈ dists.filter fun d => decide (isActiveLot d) :=
    List.mem_filter.mpr ⟨hda, decide_eq_true hacta⟩
  have hmem_sorted : da ∈ sortByCreatedAtDesc
      (dists.filter fun d => decide (isActiveLot d)) :=
    (sortByCreatedAtDesc_perm _).mem_iff.mpr hfa
  cases hsorted : sortByCreatedAtDesc
      (dists.filter fun d => decide (isActiveLot d)) with
  | nil =>
    rw [hsorted] at hmem_sorted
    exact absurd hmem_sorted (by simp)
  | cons t ts =>
    have htmem : t ∈ dists ∧ isActiveLot t := by
      have h1 : t ∈ sortByCreatedAtDesc
          (dists.filter fun d => decide (isActiveLot d)) := by
        rw [hsorted]
        exact List.mem_cons_self t ts
      have h2 := List.mem_filter.mp ((sortByCreatedAtDesc_perm _).mem_iff.mp h1)
      exact ⟨h2.1, of_decide_eq_true h2.2⟩
    have htnc : t.status ≠ .cancelled := by
      rcases htmem.2 with h | h <;> simp [h]
    have hrecent : ∀ d ∈ dists, isActiveLot d → d.createdAt ≤ t.createdAt := by
      intro d hd hactd
      exact sortByCreatedAtDesc_head_max _ t ts hsorted d
        (List.mem_filter.mpr ⟨hd, decide_eq_true hactd⟩)
    obtain ⟨hid_t, hcash_t, hitems_t, hpid_t, hstat_t, _⟩ :=
      applyFallback_no_item orig q t (hnom t htmem.1)
    obtain ⟨s1, s2, hsp⟩ := List.append_of_mem htmem.1
    have hids : ∀ d ∈ s1, d.id ≠ (applyFallback orig q t).id := by
      rw [hid_t]
      intro d hd hcontra
      have hnd := hnodup
      rw [hsp, List.map_append, List.map_cons] at hnd
      have hdisj := (List.nodup_append.mp hnd).2.2
      exact hdisj (List.mem_map_of_mem Distribution.id hd)
        (by rw [hcontra]; exact List.mem_cons_self _ _)
    have hrepl : replaceFirstById (applyFallback orig q t) dists
        = s1 ++ (applyFallback orig q t) :: s2 := by
      rw [hsp]
      exact replaceFirstById_split _ s1 t s2 hids hid_t.symm
    refine ⟨s1, t, applyFallback orig q t, s2, hsp, ?_, htmem.2, hrecent,
      hid_t, hstat_t htnc, hitems_t, hpid_t⟩
    unfold reinstCore
    rw [hloop]
    simp only []
    unfold reinstFallback
    rw [if_pos hq, hsorted]
    simp only [List.head?_cons]
    exact hrepl

/-- Reinstatement case 3: no scanned lot holds a line item for the
product and none is active. The head of the scan — the most recent
lot — receives the new line item; a cancelled target is promoted to
pending. -/
theorem reinstCore_fallback_cancelled_case (orig : TransactionItem) (q : ℚ)
    (dists : List Distribution) (hq : 0 < q)
    (hnom : ∀ d ∈ dists, ∀ it ∈ d.items, it.productId ≠ orig.productId)
    (hnoact : ∀ d ∈ dists, ¬ isActiveLot d)
    (hne : dists ≠ []) :
    ∃ t d₀' l2, dists = t :: l2 ∧
      reinstCore orig q dists = d₀' :: l2 ∧
      d₀'.id = t.id ∧
      (t.status = .cancelled → d₀'.status = .pending) ∧
      d₀'.items = t.items ++ [fallbackItem orig q] ∧
      pidQty orig.productId d₀' = pidQty orig.productId t + q := by
  cases dists with
  | nil => exact absurd rfl hne
  | cons t l2 =>
    have hloop := reinstLoop_no_match orig.productId q (t :: l2) q
      fun d hd => Or.inr (hnom d hd)
    have hfilter : ((t :: l2).filter fun d => decide (isActiveLot d)) = [] := by
      rw [List.filter_eq_nil_iff]
      intro a ha
      simpa using hnoact a ha
    obtain ⟨hid_t, hcash_t, hitems_t, hpid_t, _, hstat_t⟩ :=
      applyFallback_no_item orig q t (hnom t (List.mem_cons_self t l2))
    refine ⟨t, applyFallback orig q t, l2, rfl, ?_, hid_t, hstat_t,
      hitems_t, hpid_t⟩
    unfold reinstCore
    rw [hloop]
    simp only []
    unfold reinstFallback
    rw [if_pos hq, hfilter]
    simp only [sortByCreatedAtDesc, List.head?_nil, List.head?_cons]
    unfold replaceFirstById
    rw [if_pos hid_t.symm]

/-- Persisting a batch in which exactly one scanned lot changed updates
exactly that lot's occurrence in the collection. -/
theorem writeBack_onepoint (st : DistState) (cashier : String)
    (l1 : List Distribution) (d₀ d₀' : Distribution) (l2 : List Distribution)
    (hid : (st.lots.map Distribution.id).Nodup)
    (hsplit : sortByCreatedAtDesc (st.lots.filter fun d =>
      decide (d.cashierId = cashier ∧ (d.status = .pending ∨
        d.status = .delivered ∨ d.status = .cancelled))) = l1 ++ d₀ :: l2)
    (hid' : d₀'.id = d₀.id) :
    ∃ s1 s2, st.lots = s1 ++ d₀ :: s2 ∧
      writeBack st.lots (l1 ++ d₀' :: l2) = s1 ++ d₀' :: s2 ∧
      d₀.cashierId = cashier := by
  have hd₀mem : d₀ ∈ st.lots ∧ d₀.cashierId = cashier := by
    apply (mem_cashier_scan st cashier d₀).mp
    rw [hsplit]
    exact List.mem_append.mpr (Or.inr (List.mem_cons_self _ _))
  obtain ⟨s1, s2, hsp⟩ := List.append_of_mem hd₀mem.1
  have hl12 : ∀ u, u ∈ l1 ∨ u ∈ l2 → u ∈ st.lots := by
    intro u hu
    apply ((mem_cashier_scan st cashier u).mp ?_).1
    rw [hsplit]
    rcases hu with hu | hu
    · exact List.mem_append.mpr (Or.inl hu)
    · exact List.mem_append.mpr (Or.inr (List.mem_cons_of_mem _ hu))
  have hother : ∀ d ∈ st.lots, d.id ≠ d₀.id →
      ((l1 ++ d₀' :: l2).find? fun u => u.id == d.id).getD d = d := by
    intro d hd hne
    cases hfind : ((l1 ++ d₀' :: l2).find? fun u => u.id == d.id) with
    | none => rfl
    | some u =>
      have hpu : u.id = d.id := by simpa using List.find?_some hfind
      have hmu := List.mem_of_find?_eq_some hfind
      rcases List.mem_append.mp hmu with hmu | hmu
      · have := List.inj_on_of_nodup_map hid
          (hl12 u (Or.inl hmu)) hd hpu
        simp [this]
      · rcases List.mem_cons.mp hmu with rfl | hmu
        · rw [hid'] at hpu
          exact absurd hpu.symm hne
        · have := List.inj_on_of_nodup_map hid
            (hl12 u (Or.inr hmu)) hd hpu
          simp [this]
  have hdistnodup := scan_ids_nodup st cashier hid
  rw [hsplit, List.map_append, List.map_cons] at hdistnodup
  have hl1_ne : ∀ a ∈ l1, (a.id == d₀.id) = false := by
    intro a ha
    have hdisj := (List.nodup_append.mp hdistnodup).2.2
    have : a.id ≠ d₀.id := by
      intro hcontra
      exact hdisj (List.mem_map_of_mem Distribution.id ha)
        (by rw [hcontra]; exact List.mem_cons_self _ _)
    simpa using this
  have hd₀find : ((l1 ++ d₀' :: l2).find? fun u => u.id == d₀.id).getD d₀
      = d₀' := by
    rw [find?_append_of_all_neg _ l1 (d₀' :: l2) hl1_ne]
    have hbeq : (d₀'.id == d₀.id) = true := by simpa using hid'
    simp [List.find?_cons, hbeq]
  have hnodup_s : (st.lots.map Distribution.id).Nodup := hid
  rw [hsp, List.map_append, List.map_cons] at hnodup_s
  have hs_ne : ∀ d, (d ∈ s1 ∨ d ∈ s2) → d.id ≠ d₀.id := by
    intro d hd hcontra
    obtain ⟨hn1, hn2, hdisj⟩ := List.nodup_append.mp hnodup_s
    rcases hd with hd | hd
    · exact hdisj (List.mem_map_of_mem Distribution.id hd)
        (by rw [hcontra]; exact List.mem_cons_self _ _)
    · have := List.nodup_cons.mp hn2
      exact this.1 (by
        rw [← hcontra]
        exact List.mem_map_of_mem Distribution.id hd)
  have hwb : writeBack st.lots (l1 ++ d₀' :: l2) = s1 ++ d₀' :: s2 := by
    unfold writeBack
    rw [hsp, List.map_append, List.map_cons]
    congr 1
    · apply map_self_of
      intro a ha
      exact hother a (by rw [hsp]; exact List.mem_append.mpr (Or.inl ha))
        (hs_ne a (Or.inl ha))
    · congr 1
      apply map_self_of
      intro a ha
      exact hother a
        (by rw [hsp]
            exact List.mem_append.mpr (Or.inr (List.mem_cons_of_mem _ ha)))
        (hs_ne a (Or.inr ha))
  exact ⟨s1, s2, hsp, hwb, hd₀mem.2⟩

/-- Claim C5 as amended: the merge loop scans the cashier's lots of every
status by recency, so a cancelled lot holding a line item for the
product would be chosen over an older active lot (see the
counterexample); assuming no cancelled lot of the cashier holds a line
item for the product, the claim's full preference order holds.
(1) When some lot of the cashier holds a line item for the product, the
quantity is merged into such a lot's existing line item — no line item
is created — and that lot is active with its status kept.  (2) When no
lot of the cashier holds a line item for the product but an active lot
exists, a new line item is created in the most-recently-created active
lot, whose status is kept.  (3) Only when the cashier has no active lot
at all is the most recent lot — a cancelled one — reused: it receives
the new line item and is promoted to pending.  In every case exactly
one lot changes, so a cancelled lot is never chosen while an active lot
exists. -/
theorem c5_reinstate_prefers_active (st : DistState) (cashier : String)
    (orig : TransactionItem) (q : ℚ) (hq : 0 < q)
    (hid : (st.lots.map Distribution.id).Nodup)
    (H : ∀ d ∈ st.lots, d.cashierId = cashier → d.status = .cancelled →
      ∀ it ∈ d.items, it.productId ≠ orig.productId) :
    ((∃ d ∈ st.lots, d.cashierId = cashier ∧
        ∃ it ∈ d.items, it.productId = orig.productId) →
      ∃ pre d₀ d₀' post, st.lots = pre ++ d₀ :: post ∧
        (reinstate st cashier orig q).lots = pre ++ d₀' :: post ∧
        d₀.cashierId = cashier ∧
        (∃ it ∈ d₀.items, it.productId = orig.productId) ∧
        (d₀.status = .pending ∨ d₀.status = .delivered) ∧
        d₀'.status = d₀.status ∧ d₀'.id = d₀.id ∧
        d₀'.items.length = d₀.items.length ∧
        pidQty orig.productId d₀' = pidQty orig.productId d₀ + q) ∧
    ((∀ d ∈ st.lots, d.cashierId = cashier →
        ∀ it ∈ d.items, it.productId ≠ orig.productId) →
      (∃ d ∈ st.lots, d.cashierId = cashier ∧
        (d.status = .pending ∨ d.status = .delivered)) →
      ∃ pre d₀ d₀' post, st.lots = pre ++ d₀ :: post ∧
        (reinstate st cashier orig q).lots = pre ++ d₀' :: post ∧
        d₀.cashierId = cashier ∧
        (d₀.status = .pending ∨ d₀.status = .delivered) ∧
        (∀ d ∈ st.lots, d.cashierId = cashier →
          (d.status = .pending ∨ d.status = .delivered) →
          d.createdAt ≤ d₀.createdAt) ∧
        d₀'.status = d₀.status ∧ d₀'.id = d₀.id ∧
        d₀'.items = d₀.items ++ [fallbackItem orig q] ∧
        pidQty orig.productId d₀' = pidQty orig.productId d₀ + q) ∧
    ((∀ d ∈ st.lots, d.cashierId = cashier →
        ¬(d.status = .pending ∨ d.status = .delivered)) →
      (∃ d ∈ st.lots, d.cashierId = cashier) →
      ∃ pre d₀ d₀' post, st.lots = pre ++ d₀ :: post ∧
        (reinstate st cashier orig q).lots = pre ++ d₀' :: post ∧
        d₀.cashierId = cashier ∧ d₀.status = .cancelled ∧
        (∀ d ∈ st.lots, d.cashierId = cashier →
          d.createdAt ≤ d₀.createdAt) ∧
        d₀'.status = .pending ∧ d₀'.id = d₀.id ∧
        d₀'.items = d₀.items ++ [fallbackItem orig q] ∧
        pidQty orig.productId d₀' = pidQty orig.productId d₀ + q) := by
  refine ⟨?_, ?_, ?_⟩
  · intro hmAt
    obtain ⟨dm, hdm, hdmc, hdit⟩ := hmAt
    have hm : ∃ d ∈ sortByCreatedAtDesc (st.lots.filter fun d =>
        decide (d.cashierId = cashier ∧ (d.status = .pending ∨
          d.status = .delivered ∨ d.status = .cancelled))),
        d.items ≠ [] ∧ ∃ it ∈ d.items, it.productId = orig.productId := by
      refine ⟨dm, (mem_cashier_scan st cashier dm).mpr ⟨hdm, hdmc⟩, ?_, hdit⟩
      obtain ⟨it, hit, _⟩ := hdit
      exact List.ne_nil_of_mem hit
    obtain ⟨l1, d₀, d₀', l2, hsplit, hcore, hid', hd₀it, hlen, hstat, hpid⟩ :=
      reinstCore_match_case orig q _ hq hm
    obtain ⟨s1, s2, hsp, hwb, hcash⟩ :=
      writeBack_onepoint st cashier l1 d₀ d₀' l2 hid hsplit hid'
    have hd₀st : d₀ ∈ st.lots := by
      rw [hsp]
      exact List.mem_append.mpr (Or.inr (List.mem_cons_self _ _))
    have hnc : d₀.status ≠ .cancelled := by
      intro hc
      obtain ⟨it, hit, hip⟩ := hd₀it
      exact H d₀ hd₀st hcash hc it hit hip
    have hactive : d₀.status = .pending ∨ d₀.status = .delivered := by
      rcases distStatus_total d₀ with h | h | h
      · exact Or.inl h
      · exact Or.inr h
      · exact absurd h hnc
    refine ⟨s1, d₀, d₀', s2, hsp, ?_, hcash, hd₀it, hactive, hstat hnc,
      hid', hlen, hpid⟩
    show writeBack st.lots (reinstCore orig q _) = _
    rw [hcore, hwb]
  · intro hnomAt hactAt
    have hnom : ∀ d ∈ sortByCreatedAtDesc (st.lots.filter fun d =>
        decide (d.cashierId = cashier ∧ (d.status = .pending ∨
          d.status = .delivered ∨ d.status = .cancelled))),
        ∀ it ∈ d.items, it.productId ≠ orig.productId := by
      intro d hd
      obtain ⟨h1, h2⟩ := (mem_cashier_scan st cashier d).mp hd
      exact hnomAt d h1 h2
    have hact : ∃ d ∈ sortByCreatedAtDesc (st.lots.filter fun d =>
        decide (d.cashierId = cashier ∧ (d.status = .pending ∨
          d.status = .delivered ∨ d.status = .cancelled))), isActiveLot d := by
      obtain ⟨d, hd, hc, hs⟩ := hactAt
      exact ⟨d, (mem_cashier_scan st cashier d).mpr ⟨hd, hc⟩, hs⟩
    obtain ⟨l1, t, d₀', l2, hsplit, hcore, hactT, hrecent, hid', hstat,
      hitems, hpid⟩ := reinstCore_fallback_active_case orig q _ hq
        (scan_ids_nodup st cashier hid) hnom hact
    obtain ⟨s1, s2, hsp, hwb, hcash⟩ :=
      writeBack_onepoint st cashier l1 t d₀' l2 hid hsplit hid'
    have hrec : ∀ d ∈ st.lots, d.cashierId = cashier →
        (d.status = .pending ∨ d.status = .delivered) →
        d.createdAt ≤ t.createdAt := by
      intro d hd hc hs
      exact hrecent d ((mem_cashier_scan st cashier d).mpr ⟨hd, hc⟩) hs
    refine ⟨s1, t, d₀', s2, hsp, ?_, hcash, hactT, hrec, hstat, hid',
      hitems, hpid⟩
    show writeBack st.lots (reinstCore orig q _) = _
    rw [hcore, hwb]
  · intro hnoactAt hexAt
    have hAllCancelled : ∀ d ∈ st.lots, d.cashierId = cashier →
        d.status = .cancelled := by
      intro d hd hc
      rcases distStatus_total d with h | h | h
      · exact absurd (Or.inl h) (hnoactAt d hd hc)
      · exact absurd (Or.inr h) (hnoactAt d hd hc)
      · exact h
    have hnom : ∀ d ∈ sortByCreatedAtDesc (st.lots.filter fun d =>
        decide (d.cashierId = cashier ∧ (d.status = .pending ∨
          d.status = .delivered ∨ d.status = .cancelled))),
        ∀ it ∈ d.items, it.productId ≠ orig.productId := by
      intro d hd
      obtain ⟨h1, h2⟩ := (mem_cashier_scan st cashier d).mp hd
      exact H d h1 h2 (hAllCancelled d h1 h2)
    have hnoact : ∀ d ∈ sortByCreatedAtDesc (st.lots.filter fun d =>
        decide (d.cashierId = cashier ∧ (d.status = .pending ∨
          d.status = .delivered ∨ d.status = .cancelled))),
        ¬ isActiveLot d := by
      intro d hd
      obtain ⟨h1, h2⟩ := (mem_cashier_scan st cashier d).mp hd
      exact hnoactAt d h1 h2
    have hne : sortByCreatedAtDesc (st.lots.filter fun d =>
        decide (d.cashierId = cashier ∧ (d.status = .pending ∨
          d.status = .delivered ∨ d.status = .cancelled))) ≠ [] := by
      obtain ⟨d, hd, hc⟩ := hexAt
      exact List.ne_nil_of_mem ((mem_cashier_scan st cashier d).mpr ⟨hd, hc⟩)
    obtain ⟨t, d₀', l2, hsplit0, hcore, hid', hstatC, hitems, hpid⟩ :=
      reinstCore_fallback_cancelled_case orig q _ hq hnom hnoact hne
    have hsplit : sortByCreatedAtDesc (st.lots.filter fun d =>
        decide (d.cashierId = cashier ∧ (d.status = .pending ∨
          d.status = .delivered ∨ d.status = .cancelled)))
        = [] ++ t :: l2 := by
      rw [List.nil_append]
      exact hsplit0
    obtain ⟨s1, s2, hsp, hwb, hcash⟩ :=
      writeBack_onepoint st cashier [] t d₀' l2 hid hsplit hid'
    rw [List.nil_append] at hwb
    have htst : t ∈ st.lots := by
      rw [hsp]
      exact List.mem_append.mpr (Or.inr (List.mem_cons_self _ _))
    have htc : t.status = .cancelled := hAllCancelled t htst hcash
    have hrec : ∀ d ∈ st.lots, d.cashierId = cashier →
        d.createdAt ≤ t.createdAt := by
      intro d hd hc
      exact sortByCreatedAtDesc_head_max _ t l2 hsplit0 d
        (List.mem_filter.mpr
          ⟨hd, decide_eq_true ⟨hc, distStatus_total d⟩⟩)
    refine ⟨s1, t, d₀', s2, hsp, ?_, hcash, htc, hrec, hstatC htc, hid',
      hitems, hpid⟩
    show writeBack st.lots (reinstCore orig q _) = _
    rw [hcore, hwb]

/-- Counterexample for C5 as stated: cashier `"c"` holds an older active
lot with 5 units of `"P"` and a newer cancelled lot still holding a line
item for `"P"`; returning 1 unit merges it into the cancelled lot
(promoting it to pending) and leaves the active lot untouched, so a
cancelled lot is chosen while an active lot holding the product
exists. -/
theorem c5_counterexample_cancelled_lot_chosen :
    lotPending.status = .pending ∧ lotCancelled.status = .cancelled ∧
    pidQty "P" lotPending = 5 ∧ pidQty "P" lotCancelled = 2 ∧
    (processReturn txTwo ⟨[lotPending, lotCancelled], 3⟩ 7
      [⟨0, 1, "r"⟩]).err = none ∧
    (processReturn txTwo ⟨[lotPending, lotCancelled], 3⟩ 7
      [⟨0, 1, "r"⟩]).state.lots.getD 0 dDist = lotPending ∧
    ((processReturn txTwo ⟨[lotPending, lotCancelled], 3⟩ 7
      [⟨0, 1, "r"⟩]).state.lots.getD 1 dDist).status = .pending ∧
    pidQty "P" ((processReturn txTwo ⟨[lotPending, lotCancelled], 3⟩ 7
      [⟨0, 1, "r"⟩]).state.lots.getD 1 dDist) = 3 := by
  norm_num [processReturn, returnLoop, reinstate, reinstCore, reinstLoop,
    reinstLot, addBackItems, reinstFallback, sortByCreatedAtDesc,
    insertDistDesc, writeBack, alreadyReturnedFor, finalizeTx,
    validSaveTransaction, validTransactionItem, validReturnedItem, dItem,
    dDist, txTwo, lotPending, lotCancelled, pidQty, itemsPidSum, isActiveLot]
  simp

/-- Witness for C5 as amended at a concrete state: one pending lot of
cashier `"c"`. -/
theorem c5_witness :
    (0 : ℚ) < 1 ∧
    (((⟨[lotPending], 2⟩ : DistState).lots.map Distribution.id).Nodup) ∧
    (∃ pre d₀ d₀' post,
      (⟨[lotPending], 2⟩ : DistState).lots = pre ++ d₀ :: post ∧
      (reinstate ⟨[lotPending], 2⟩ "c"
        ⟨"P", "N", "K", "cat", 2, 100, 0, 200⟩ 1).lots = pre ++ d₀' :: post ∧
      d₀.cashierId = "c" ∧
      (∃ it ∈ d₀.items, it.productId = "P") ∧
      (d₀.status = .pending ∨ d₀.status = .delivered) ∧
      d₀'.status = d₀.status ∧ d₀'.id = d₀.id ∧
      d₀'.items.length = d₀.items.length ∧
      pidQty "P" d₀' = pidQty "P" d₀ + 1) := by
  refine ⟨by norm_num, by simp, ?_⟩
  exact (c5_reinstate_prefers_active ⟨[lotPending], 2⟩ "c"
    ⟨"P", "N", "K", "cat", 2, 100, 0, 200⟩ 1 (by norm_num) (by simp)
    (by
      intro d hd hc hs
      rw [List.mem_singleton] at hd
      subst hd
      simp [lotPending] at hs)).1
    ⟨lotPending, by simp, rfl,
      ⟨⟨"P", "N", "K", "cat", 5, 100, 500⟩, by simp [lotPending], rfl⟩⟩

/-- Claim C1 (code bug): a return request whose first line is valid and
whose second line has an invalid item index is rejected with the
transaction unchanged, but the stock reinstated for the first line has
already been persisted — lot 1 of cashier `"c"` went from 5 to 6 units
of `"P"` even though the request failed, contradicting the specified
all-or-nothing validation. -/
theorem c1_partial_mutation_on_rejected_return :
    (processReturn txTwo ⟨[lotPending], 2⟩ 7 [⟨0, 1, "a"⟩, ⟨7, 1, "b"⟩]).err.isSome
      = true ∧
    (processReturn txTwo ⟨[lotPending], 2⟩ 7 [⟨0, 1, "a"⟩, ⟨7, 1, "b"⟩]).tx
      = txTwo ∧
    pidQty "P" ((processReturn txTwo ⟨[lotPending], 2⟩ 7
      [⟨0, 1, "a"⟩, ⟨7, 1, "b"⟩]).state.lots.getD 0 dDist) = 6 ∧
    pidQty "P" lotPending = 5 := by
  norm_num [processReturn, returnLoop, reinstate, reinstCore, reinstLoop,
    reinstLot, addBackItems, reinstFallback, sortByCreatedAtDesc, insertDistDesc,
    writeBack, alreadyReturnedFor, finalizeTx, validSaveTransaction,
    validTransactionItem, validReturnedItem, dItem, dDist, txTwo, lotPending,
    pidQty, itemsPidSum, isActiveLot]
  simp

/-- Claim C2 (code bug): a single request with two lines of 3 units each
for the same original item of quantity 4 is accepted in full, because
the over-return check only reads the returns persisted before the
request; the recorded returned quantity reaches 6 > 4, violating the
invariant that the summed returns never exceed the original quantity. -/
theorem c2_overreturn_within_single_request :
    (processReturn txFour ⟨[], 0⟩ 7 [⟨0, 3, "x"⟩, ⟨0, 3, "y"⟩]).err = none ∧
    (((processReturn txFour ⟨[], 0⟩ 7
        [⟨0, 3, "x"⟩, ⟨0, 3, "y"⟩]).tx.returnedItems.map
      ReturnedItem.quantity).sum) = 6 ∧
    ((txFour.items.map TransactionItem.quantity).sum) = 4 := by
  norm_num [processReturn, returnLoop, reinstate, reinstCore, reinstLoop,
    reinstLot, addBackItems, reinstFallback, sortByCreatedAtDesc, insertDistDesc,
    writeBack, alreadyReturnedFor, finalizeTx, validSaveTransaction,
    validTransactionItem, validReturnedItem, dItem, txFour, isActiveLot]
  simp
  norm_num

/-- Claim C6: on every successful return, each line's recorded refund is
(original line total / original quantity) × returned quantity, and the
reported refund is the sum of the per-line refunds. -/
theorem c6_refund_proportionality (tx : Transaction) (st : DistState)
    (now : ℤ) (reqs : List ReturnRequest)
    (h : (processReturn tx st now reqs).err = none) :
    ((processReturn tx st now reqs).tx.returnedItems.map ReturnedItem.returnAmount
        = tx.returnedItems.map ReturnedItem.returnAmount
          ++ reqs.map (lineRefund tx)) ∧
    (processReturn tx st now reqs).amount = (reqs.map (lineRefund tx)).sum := by
  obtain ⟨st1, total, ni, hloop, hv, hres⟩ := processReturn_success tx st now reqs h
  have hspec := returnLoop_none_spec tx now reqs st 0 [] (by rw [hloop])
  rw [hloop] at hspec
  obtain ⟨hq, ha, ht, hb⟩ := hspec
  simp only [List.map_nil, List.nil_append] at ha
  simp only [zero_add] at ht
  rw [hres]
  constructor
  · show (finalizeTx tx total ni).returnedItems.map ReturnedItem.returnAmount = _
    rw [finalizeTx_returnedItems]
    simp [ha]
  · exact ht

/-- Witness for C6 at the spec's example: quantity 4 with line total 360;
returning 1 then the remaining 3 in one request yields refunds 90 and
270 summing to 360. -/
theorem c6_witness :
    (processReturn txFour ⟨[], 0⟩ 7 [⟨0, 1, "a"⟩, ⟨0, 3, "b"⟩]).err = none ∧
    ((processReturn txFour ⟨[], 0⟩ 7
        [⟨0, 1, "a"⟩, ⟨0, 3, "b"⟩]).tx.returnedItems.map ReturnedItem.returnAmount
      = txFour.returnedItems.map ReturnedItem.returnAmount
        ++ [⟨(0 : ℤ), (1 : ℚ), "a"⟩,
            ⟨(0 : ℤ), (3 : ℚ), "b"⟩].map (lineRefund txFour)) ∧
    (processReturn txFour ⟨[], 0⟩ 7 [⟨0, 1, "a"⟩, ⟨0, 3, "b"⟩]).amount
      = ([⟨(0 : ℤ), (1 : ℚ), "a"⟩,
          ⟨(0 : ℤ), (3 : ℚ), "b"⟩].map (lineRefund txFour)).sum ∧
    lineRefund txFour ⟨0, 1, "a"⟩ = 90 ∧
    lineRefund txFour ⟨0, 3, "b"⟩ = 270 := by
  have herr : (processReturn txFour ⟨[], 0⟩ 7
      [⟨0, 1, "a"⟩, ⟨0, 3, "b"⟩]).err = none := by
    norm_num [processReturn, returnLoop, reinstate, reinstCore, reinstLoop,
      reinstLot, addBackItems, reinstFallback, sortByCreatedAtDesc,
      insertDistDesc, writeBack, alreadyReturnedFor, finalizeTx,
      validSaveTransaction, validTransactionItem, validReturnedItem, dItem,
      txFour, isActiveLot]
    simp
  obtain ⟨h1, h2⟩ := c6_refund_proportionality txFour ⟨[], 0⟩ 7
    [⟨0, 1, "a"⟩, ⟨0, 3, "b"⟩] herr
  exact ⟨herr, h1, h2, by norm_num [lineRefund, txFour, dItem],
    by norm_num [lineRefund, txFour, dItem]⟩

/-- Claim C7 as amended: the handler performs no up-front positivity or
integrality validation of the requested quantity; a line quantity below
1 (zero or negative) is nevertheless rejected, because the saved
returned item violates the schema's min-1 bound, and out-of-range item
indexes are rejected — but fractional quantities of at least 1 are
accepted (see the counterexample). -/
theorem c7_quantity_below_one_rejected (tx : Transaction) (st : DistState)
    (now : ℤ) (reqs : List ReturnRequest)
    (h : ∃ r ∈ reqs, r.quantity < 1 ∨ r.itemIndex < 0 ∨
      (tx.items.length : ℤ) ≤ r.itemIndex) :
    (processReturn tx st now reqs).err ≠ none := by
  intro hnone
  obtain ⟨st1, total, ni, hloop, hv, hres⟩ :=
    processReturn_success tx st now reqs hnone
  have hspec := returnLoop_none_spec tx now reqs st 0 [] (by rw [hloop])
  rw [hloop] at hspec
  obtain ⟨hq, ha, ht, hb⟩ := hspec
  simp only [List.map_nil, List.nil_append] at hq
  obtain ⟨r, hr, hbad⟩ := h
  rcases hbad with hqlt | hbad
  · have hmem : r.quantity ∈ ni.map ReturnedItem.quantity := by
      rw [hq]
      exact List.mem_map.mpr ⟨r, hr, rfl⟩
    obtain ⟨ri, hri, hriq⟩ := List.mem_map.mp hmem
    have hmemb : ri ∈ (finalizeTx tx total ni).returnedItems := by
      rw [finalizeTx_returnedItems]
      exact List.mem_append.mpr (Or.inr hri)
    have hvr := hv.2.1 ri hmemb
    have hone : (1 : ℚ) ≤ ri.quantity := hvr.2.2.2.1
    rw [hriq] at hone
    linarith
  · obtain ⟨hge, hlt⟩ := hb r hr
    rcases hbad with h1 | h2
    · omega
    · omega

/-- Witness for C7 as amended: a request line of quantity 0 is rejected. -/
theorem c7_witness :
    (processReturn txFour ⟨[], 0⟩ 7 [⟨(0 : ℤ), (0 : ℚ), "z"⟩]).err ≠ none :=
  c7_quantity_below_one_rejected txFour ⟨[], 0⟩ 7 [⟨(0 : ℤ), (0 : ℚ), "z"⟩]
    ⟨⟨(0 : ℤ), (0 : ℚ), "z"⟩, by simp, Or.inl (by norm_num)⟩

/-- Counterexample for C7 as stated: a line of fractional quantity 3/2
(strictly between the integers 1 and 2) is accepted end to end, so the
handler does not reject every non-positive-integer quantity. -/
theorem c7_counterexample_fractional_quantity_accepted :
    (1 : ℚ) < 3 / 2 ∧ (3 / 2 : ℚ) < 2 ∧
    (processReturn txFour ⟨[], 0⟩ 7 [⟨0, 3 / 2, "z"⟩]).err = none ∧
    ((processReturn txFour ⟨[], 0⟩ 7 [⟨0, 3 / 2, "z"⟩]).tx.returnedItems.map
      ReturnedItem.quantity) = [3 / 2] := by
  refine ⟨by norm_num, by norm_num, ?_⟩
  norm_num [processReturn, returnLoop, reinstate, reinstCore, reinstLoop,
    reinstLot, addBackItems, reinstFallback, sortByCreatedAtDesc,
    insertDistDesc, writeBack, alreadyReturnedFor, finalizeTx,
    validSaveTransaction, validTransactionItem, validReturnedItem, dItem,
    txFour, isActiveLot]
  simp

/-- Claim C8: after a successful return, the status is refunded exactly
when the summed returned quantity has reached the summed original
quantity: equality forces refunded, and a strictly smaller returned sum
leaves the status unchanged. -/
theorem c8_refunded_status_iff_full_return (tx : Transaction)
    (st : DistState) (now : ℤ) (reqs : List ReturnRequest)
    (h : (processReturn tx st now reqs).err = none) :
    (((processReturn tx st now reqs).tx.returnedItems.map
        ReturnedItem.quantity).sum
      = ((processReturn tx st now reqs).tx.items.map
        TransactionItem.quantity).sum →
      (processReturn tx st now reqs).tx.status = .refunded) ∧
    (((processReturn tx st now reqs).tx.returnedItems.map
        ReturnedItem.quantity).sum
      < ((processReturn tx st now reqs).tx.items.map
        TransactionItem.quantity).sum →
      (processReturn tx st now reqs).tx.status = tx.status) := by
  obtain ⟨st1, total, ni, hloop, hv, hres⟩ := processReturn_success tx st now reqs h
  have htx : (processReturn tx st now reqs).tx = finalizeTx tx total ni := by
    rw [hres]
  rw [htx, finalizeTx_returnedItems, finalizeTx_items, finalizeTx_status]
  constructor
  · intro hEq
    rw [if_pos (le_of_eq hEq.symm)]
  · intro hLt
    rw [if_neg (not_le.mpr hLt)]

/-- Witness for C8: fully returning the single 2-unit item marks the
transaction refunded. -/
theorem c8_witness :
    (processReturn txTwo ⟨[], 0⟩ 7 [⟨0, 2, "r"⟩]).err = none ∧
    (((processReturn txTwo ⟨[], 0⟩ 7 [⟨0, 2, "r"⟩]).tx.returnedItems.map
        ReturnedItem.quantity).sum
      = ((processReturn txTwo ⟨[], 0⟩ 7 [⟨0, 2, "r"⟩]).tx.items.map
        TransactionItem.quantity).sum →
      (processReturn txTwo ⟨[], 0⟩ 7 [⟨0, 2, "r"⟩]).tx.status = .refunded) ∧
    (((processReturn txTwo ⟨[], 0⟩ 7 [⟨0, 2, "r"⟩]).tx.returnedItems.map
        ReturnedItem.quantity).sum
      < ((processReturn txTwo ⟨[], 0⟩ 7 [⟨0, 2, "r"⟩]).tx.items.map
        TransactionItem.quantity).sum →
      (processReturn txTwo ⟨[], 0⟩ 7 [⟨0, 2, "r"⟩]).tx.status = txTwo.status) := by
  have herr : (processReturn txTwo ⟨[], 0⟩ 7 [⟨0, 2, "r"⟩]).err = none := by
    norm_num [processReturn, returnLoop, reinstate, reinstCore, reinstLoop,
      reinstLot, addBackItems, reinstFallback, sortByCreatedAtDesc,
      insertDistDesc, writeBack, alreadyReturnedFor, finalizeTx,
      validSaveTransaction, validTransactionItem, validReturnedItem, dItem,
      txTwo, isActiveLot]
    simp
  exact ⟨herr, c8_refunded_status_iff_full_return txTwo ⟨[], 0⟩ 7 [⟨0, 2, "r"⟩] herr⟩

/-- Claim C9 as amended: the invariant
`totalAmount = subtotal − overallDiscount` is preserved by every
successful return whose refund does not exceed the pre-return
totalAmount (in particular whenever the overall discount is 0); with a
positive overall discount a refund larger than totalAmount breaks it,
because both fields are clamped at 0 (see the counterexample). -/
theorem c9_invariant_preserved_when_refund_le_total (tx : Transaction)
    (st : DistState) (now : ℤ) (reqs : List ReturnRequest)
    (h : (processReturn tx st now reqs).err = none)
    (hinv : tx.totalAmount = tx.subtotal - tx.overallDiscount)
    (hd : 0 ≤ tx.overallDiscount)
    (hle : (processReturn tx st now reqs).amount ≤ tx.totalAmount) :
    (processReturn tx st now reqs).tx.totalAmount
      = (processReturn tx st now reqs).tx.subtotal
        - (processReturn tx st now reqs).tx.overallDiscount := by
  obtain ⟨st1, total, ni, hloop, hv, hres⟩ := processReturn_success tx st now reqs h
  have htx : (processReturn tx st now reqs).tx = finalizeTx tx total ni := by
    rw [hres]
  have hamt : (processReturn tx st now reqs).amount = total := by
    rw [hres]
  rw [hamt] at hle
  rw [htx, finalizeTx_totalAmount, finalizeTx_subtotal, finalizeTx_overallDiscount]
  have h1 : max 0 (tx.totalAmount - total) = tx.totalAmount - total :=
    max_eq_right (by linarith)
  have h2 : max 0 (tx.subtotal - total) = tx.subtotal - total :=
    max_eq_right (by linarith)
  rw [h1, h2]
  linarith

/-- Witness for C9 as amended: returning 1 of 4 units (refund 90 of a
360 total, no discount) preserves the invariant. -/
theorem c9_witness :
    (processReturn txFour ⟨[], 0⟩ 7 [⟨0, 1, "a"⟩]).err = none ∧
    txFour.totalAmount = txFour.subtotal - txFour.overallDiscount ∧
    (0 : ℚ) ≤ txFour.overallDiscount ∧
    (processReturn txFour ⟨[], 0⟩ 7 [⟨0, 1, "a"⟩]).amount ≤ txFour.totalAmount ∧
    (processReturn txFour ⟨[], 0⟩ 7 [⟨0, 1, "a"⟩]).tx.totalAmount
      = (processReturn txFour ⟨[], 0⟩ 7 [⟨0, 1, "a"⟩]).tx.subtotal
        - (processReturn txFour ⟨[], 0⟩ 7 [⟨0, 1, "a"⟩]).tx.overallDiscount := by
  have herr : (processReturn txFour ⟨[], 0⟩ 7 [⟨0, 1, "a"⟩]).err = none := by
    norm_num [processReturn, returnLoop, reinstate, reinstCore, reinstLoop,
      reinstLot, addBackItems, reinstFallback, sortByCreatedAtDesc,
      insertDistDesc, writeBack, alreadyReturnedFor, finalizeTx,
      validSaveTransaction, validTransactionItem, validReturnedItem, dItem,
      txFour, isActiveLot]
    simp
  have hamt : (processReturn txFour ⟨[], 0⟩ 7 [⟨0, 1, "a"⟩]).amount
      ≤ txFour.totalAmount := by
    have := (c6_refund_proportionality txFour ⟨[], 0⟩ 7 [⟨0, 1, "a"⟩] herr).2
    rw [this]
    norm_num [lineRefund, txFour, dItem]
  exact ⟨herr, by norm_num [txFour], by norm_num [txFour], hamt,
    c9_invariant_preserved_when_refund_le_total txFour ⟨[], 0⟩ 7 [⟨0, 1, "a"⟩]
      herr (by norm_num [txFour]) (by norm_num [txFour]) hamt⟩

/-- Counterexample for C9 as stated: fully returning the item of a
transaction with subtotal 100, overall discount 20, total amount 80
(invariant holds before) yields subtotal 0 and totalAmount 0, and
`0 ≠ 0 − 20`, so the invariant does not survive the clamped update. -/
theorem c9_counterexample_invariant_broken :
    txDisc.totalAmount = txDisc.subtotal - txDisc.overallDiscount ∧
    (processReturn txDisc ⟨[], 0⟩ 7 [⟨0, 1, "r"⟩]).err = none ∧
    ¬ ((processReturn txDisc ⟨[], 0⟩ 7 [⟨0, 1, "r"⟩]).tx.totalAmount
      = (processReturn txDisc ⟨[], 0⟩ 7 [⟨0, 1, "r"⟩]).tx.subtotal
        - (processReturn txDisc ⟨[], 0⟩ 7 [⟨0, 1, "r"⟩]).tx.overallDiscount) := by
  refine ⟨by norm_num [txDisc], ?_⟩
  norm_num [processReturn, returnLoop, reinstate, reinstCore, reinstLoop,
    reinstLot, addBackItems, reinstFallback, sortByCreatedAtDesc,
    insertDistDesc, writeBack, alreadyReturnedFor, finalizeTx,
    validSaveTransaction, validTransactionItem, validReturnedItem, dItem,
    txDisc, isActiveLot]
  simp

end Pos
